import Mathlib

/-!
Verification of the buddy memory allocator in `buddy-malloc.c`.

Shallow embedding conventions:

* Machine addresses and `size_t` values are modelled as `Nat`.  `size_t`
  arithmetic wraps at `2 ^ 64`; the wrap is written explicitly (`% SIZE_T_MOD`)
  at the places where the C source adds values that can overflow.  Theorems
  about `size_t`-typed inputs carry `< 2 ^ 64` bounds where they matter.
* The static byte array `node_is_split` is modelled as a single `Nat` viewed
  as a little-endian bit string: bit `8 * byteIdx + bitIdx` of the `Nat` is bit
  `bitIdx` of `node_is_split[byteIdx]`.  Hence the bit of tree node `n` is bit
  `n` of the `Nat`, and the byte `node_is_split[n / 8]` is
  `(s >>> (8 * (n / 8))) % 256`.
* The intrusive circular doubly-linked free lists are modelled per bucket as a
  `List Nat` of the block addresses threaded on that list, ordered from front
  (`head->next`) to back (`head->prev`).  `list_push` appends at the back,
  `list_pop` removes the back element, `list_remove` erases the given address.
  In the C code `list_remove` unlinks an entry from whichever list physically
  holds it; the model erases it from the bucket list named at the call site,
  which is where the entry sits whenever the call respects the allocator's
  contract.
* Heap bytes are modelled only where the allocator itself reads or writes
  them: the 8-byte block headers live in an association list `mem` from block
  address to stored `size_t` value (newer writes shadow older ones, as a store
  to the same address would).  Memory obtained from `brk` is zero-initialised,
  so reading a never-written header yields 0.
* The host primitives `sbrk`/`brk` are modelled by a base address parameter
  and an oracle `brkOk : Nat → Bool` saying whether the kernel grants an
  extension of the committed region up to a given address.
* Every state-changing operation additionally returns the list of arena byte
  ranges it writes (block headers and free-list link words), each paired with
  the value of `max_ptr` in force at the moment of the write.  Writes to the
  static bucket heads are not arena writes and are not recorded.
* The C loops are compiled to structurally recursive Lean functions.  The
  search loop of `buddy_malloc` steps `bucket` down to 0 exactly as the C
  `while (bucket + 1 != 0)` loop does.  The split loop runs
  `original_bucket - bucket` times, matching its guard `bucket < original`.
  The merge loop of `buddy_free` halves `i` every iteration, so it performs at
  most 64 iterations for any 64-bit `i`; it is given fuel 64, which is exact
  for every representable input.
-/

namespace BuddyMalloc

/-- Bytes reserved for the allocation header (`HEADER_SIZE` in the C source). -/
def HEADER_SIZE : Nat := 8

/-- Log2 of the minimum allocation size (`MIN_ALLOC_LOG2`). -/
def MIN_ALLOC_LOG2 : Nat := 4

/-- The minimum allocation size, 16 bytes (`MIN_ALLOC`). -/
def MIN_ALLOC : Nat := 1 <<< MIN_ALLOC_LOG2

/-- Log2 of the maximum allocation size (`MAX_ALLOC_LOG2`). -/
def MAX_ALLOC_LOG2 : Nat := 31

/-- The maximum allocation size, 2 GiB (`MAX_ALLOC`). -/
def MAX_ALLOC : Nat := 1 <<< MAX_ALLOC_LOG2

/-- Number of buckets (`BUCKET_COUNT = MAX_ALLOC_LOG2 - MIN_ALLOC_LOG2 + 1`). -/
def BUCKET_COUNT : Nat := MAX_ALLOC_LOG2 - MIN_ALLOC_LOG2 + 1

/-- Size of `list_t` (two 8-byte pointers on the 64-bit target). -/
def LIST_T_SIZE : Nat := 16

/-- One more than the largest `size_t` value: `size_t` arithmetic wraps here. -/
def SIZE_T_MOD : Nat := 2 ^ 64

/-- The mutable global state of the allocator: the free-list table `buckets`,
the split-bit array `node_is_split`, and the pointers `base_ptr`/`max_ptr`,
together with the block headers the allocator has written (`mem`). -/
structure AllocState where
  buckets : List (List Nat)
  node_is_split : Nat
  base_ptr : Nat
  max_ptr : Nat
  mem : List (Nat × Nat)
deriving DecidableEq, Repr

/-- One recorded arena write: the bytes `[lo, hi)` were written while
`max_ptr` was `maxAt`. -/
structure WEvent where
  lo : Nat
  hi : Nat
  maxAt : Nat
deriving DecidableEq, Repr

/-- The free list of bucket `b` (contents of the circular list headed at
`buckets[b]`, front to back). -/
def getBucket (st : AllocState) (b : Nat) : List Nat :=
  st.buckets.getD b []

/-- Replace the free list of bucket `b`. -/
def setBucket (st : AllocState) (b : Nat) (l : List Nat) : AllocState :=
  { st with buckets := st.buckets.set b l }

/-- Arena writes performed by `list_push(head, entry)`: the two link words of
`entry`, plus the `next` field of the old back entry when the list is
non-empty (when it is empty the overwritten `prev->next` is the static head). -/
def pushEvents (maxAt : Nat) (l : List Nat) (entry : Nat) : List WEvent :=
  ⟨entry, entry + LIST_T_SIZE, maxAt⟩ ::
    (match l.getLast? with
     | some back => [⟨back + 8, back + LIST_T_SIZE, maxAt⟩]
     | none => [])

/-- Arena writes performed by `list_pop` when it removes the back entry: the
`next` field of the new back entry, if any (the head's `prev` is static). -/
def popEvents (maxAt : Nat) (l : List Nat) : List WEvent :=
  match l.dropLast.getLast? with
  | some p => [⟨p + 8, p + LIST_T_SIZE, maxAt⟩]
  | none => []

/-- Arena writes performed by `list_remove(a)` when `a` is on list `l`: the
`next` field of the predecessor and the `prev` field of the successor, when
those neighbours are list entries rather than the static head. -/
def eraseEvents (maxAt : Nat) (l : List Nat) (a : Nat) : List WEvent :=
  match l.findIdx? (· == a) with
  | none => []
  | some i =>
    (match i with
     | 0 => []
     | j+1 =>
       match l[j]? with
       | some p => [⟨p + 8, p + LIST_T_SIZE, maxAt⟩]
       | none => []) ++
    (match l[i+1]? with
     | some nx => [⟨nx, nx + 8, maxAt⟩]
     | none => [])

/-- `update_max_ptr(new_value)`: extend the committed region if needed.
`brkOk` tells whether the `brk` call succeeds.  Returns the C function's
truth value together with the updated state. -/
def update_max_ptr (brkOk : Nat → Bool) (st : AllocState) (new_value : Nat) :
    Bool × AllocState :=
  if new_value > st.max_ptr then
    if brkOk new_value then (true, { st with max_ptr := new_value })
    else (false, st)
  else (true, st)

/-- `ptr_for_node(index, bucket)`.  The C expression
`(index - (1 << bucket) + 1) << (MAX_ALLOC_LOG2 - bucket)` is reassociated to
`index + 1 - (1 << bucket)` so that `Nat` subtraction agrees with the `size_t`
value whenever `index ≥ (1 << bucket) - 1`, which holds at every call site. -/
def ptr_for_node (st : AllocState) (index bucket : Nat) : Nat :=
  st.base_ptr + ((index + 1 - (1 <<< bucket)) <<< (MAX_ALLOC_LOG2 - bucket))

/-- `node_for_ptr(ptr, bucket)`. -/
def node_for_ptr (st : AllocState) (ptr bucket : Nat) : Nat :=
  ((ptr - st.base_ptr) >>> (MAX_ALLOC_LOG2 - bucket)) + (1 <<< bucket) - 1

/-- `flip_parent_is_split(index)`: toggle the parent's split bit.  The C
function returns the value of the assignment expression
`node_is_split[p / 8] ^= 1 << (p % 8)`, i.e. the new value of the whole
*byte* holding the parent's bit; the model returns that byte value together
with the updated state. -/
def flip_parent_is_split (st : AllocState) (index : Nat) : Nat × AllocState :=
  let p := (index - 1) / 2
  let s := st.node_is_split ^^^ (1 <<< p)
  ((s >>> (8 * (p / 8))) % 256, { st with node_is_split := s })

/-- The loop body of `bucket_for_request`, structurally recursive on the
bucket counter.  The C loop can only drive `bucket` below 0 when
`request > MAX_ALLOC`, which no in-contract call does; the fuel-0 case
returns bucket 0 exactly as the C loop does for `request = MAX_ALLOC`. -/
def bucketLoop : Nat → Nat → Nat → Nat
  | 0, _, _ => 0
  | b+1, size, request =>
    if size < request then bucketLoop b (size * 2) request else b + 1

/-- `bucket_for_request(request)`: the smallest bucket whose size fits
`request`. -/
def bucket_for_request (request : Nat) : Nat :=
  bucketLoop (BUCKET_COUNT - 1) MIN_ALLOC request

/-- The split loop of `buddy_malloc` (`while (bucket < original_bucket)`),
run with fuel `original_bucket - bucket`, which is exactly the number of
iterations the C loop performs.  Returns the final node index and bucket, the
new state, and the arena writes of the sibling pushes. -/
def split_loop : Nat → Nat → Nat → AllocState → Nat × Nat × AllocState × List WEvent
  | 0, i, bucket, st => (i, bucket, st, [])
  | fuel+1, i, bucket, st =>
    let i' := i * 2 + 1
    let bucket' := bucket + 1
    let st1 := (flip_parent_is_split st i').2
    let sib := ptr_for_node st1 (i' + 1) bucket'
    let l := getBucket st1 bucket'
    let st2 := setBucket st1 bucket' (l ++ [sib])
    let r := split_loop fuel i' bucket' st2
    (r.1, r.2.1, r.2.2.1, pushEvents st1.max_ptr l sib ++ r.2.2.2)

/-- The header write `*(size_t *)ptr = request`: store the 8-byte value `v`
at address `p` (newer stores shadow older ones in the association list). -/
def writeHeader (st : AllocState) (p v : Nat) : AllocState :=
  { st with mem := (p, v) :: st.mem }

/-- The body of one successful iteration of the search loop of `buddy_malloc`:
the free list of `bucket` had back entry `ptr` (and remaining entries `rest`).
Commits memory, marks the node used, splits down to `original`, writes the
header, or on commit failure pushes the block back and fails. -/
def mallocFound (brkOk : Nat → Bool) (original request bucket : Nat)
    (st : AllocState) (ptr : Nat) (rest : List Nat) :
    Option Nat × AllocState × List WEvent :=
  let popEv := popEvents st.max_ptr (getBucket st bucket)
  let st0 := setBucket st bucket rest
  let size := 1 <<< (MAX_ALLOC_LOG2 - bucket)
  let bytes_needed := if bucket < original then size / 2 + LIST_T_SIZE else size
  match update_max_ptr brkOk st0 (ptr + bytes_needed) with
  | (true, st1) =>
    let i := node_for_ptr st1 ptr bucket
    let st2 := if i ≠ 0 then (flip_parent_is_split st1 i).2 else st1
    let r := split_loop (original - bucket) i bucket st2
    let st3 := r.2.2.1
    (some (ptr + HEADER_SIZE), writeHeader st3 ptr request,
      popEv ++ r.2.2.2 ++ [⟨ptr, ptr + HEADER_SIZE, st3.max_ptr⟩])
  | (false, st1) =>
    let l := getBucket st1 bucket
    (none, setBucket st1 bucket (l ++ [ptr]), popEv ++ pushEvents st1.max_ptr l ptr)

/-- The search loop of `buddy_malloc` (`while (bucket + 1 != 0)`), stepping
`bucket` down and popping the first non-empty free list. -/
def malloc_loop (brkOk : Nat → Bool) (original request : Nat) :
    Nat → AllocState → Option Nat × AllocState × List WEvent
  | 0, st =>
    match (getBucket st 0).getLast? with
    | none => (none, st, [])
    | some ptr =>
      mallocFound brkOk original request 0 st ptr (getBucket st 0).dropLast
  | b+1, st =>
    match (getBucket st (b+1)).getLast? with
    | none => malloc_loop brkOk original request b st
    | some ptr =>
      mallocFound brkOk original request (b+1) st ptr (getBucket st (b+1)).dropLast

/-- `buddy_malloc(request)`.  Returns the allocated address (or `none`), the
new state, and the recorded arena writes. -/
def buddy_malloc (brkOk : Nat → Bool) (st : AllocState) (request : Nat) :
    Option Nat × AllocState × List WEvent :=
  let req8 := (request + HEADER_SIZE) % SIZE_T_MOD
  if req8 > MAX_ALLOC then (none, st, [])
  else
    let original := bucket_for_request req8
    malloc_loop brkOk original request original st

/-- Read the 8-byte block header at address `p`.  Never-written `brk` memory
is zero-initialised by the kernel, hence the default 0. -/
def readHeader (st : AllocState) (p : Nat) : Nat :=
  (st.mem.lookup p).getD 0

/-- Fuel for the merge loop of `buddy_free`: `i` at least halves every
iteration, so 64 iterations are enough for any 64-bit node index. -/
def FREE_FUEL : Nat := 64

/-- The merge loop of `buddy_free` (`while (i != 0)`): flip the parent's
split bit; if the returned byte is non-zero stop, else unlink the buddy
from the current bucket's free list and ascend.  Returns the final node
index and bucket, the new state, and the arena writes of the unlinks. -/
def free_loop : Nat → Nat → Nat → AllocState → Nat × Nat × AllocState × List WEvent
  | 0, i, bucket, st => (i, bucket, st, [])
  | _+1, 0, bucket, st => (0, bucket, st, [])
  | fuel+1, i+1, bucket, st =>
    let fr := flip_parent_is_split st (i+1)
    if fr.1 ≠ 0 then (i+1, bucket, fr.2, [])
    else
      let buddyAddr := ptr_for_node fr.2 ((i ^^^ 1) + 1) bucket
      let l := getBucket fr.2 bucket
      let ev := eraseEvents fr.2.max_ptr l buddyAddr
      let st2 := setBucket fr.2 bucket (l.erase buddyAddr)
      let r := free_loop fuel (i / 2) (bucket - 1) st2
      (r.1, r.2.1, r.2.2.1, ev ++ r.2.2.2)

/-- `buddy_free(ptr)`: step back over the header, recover the bucket from the
stored size, run the merge loop, and push the final node onto the back of its
bucket's free list. -/
def buddy_free (st : AllocState) (userPtr : Nat) : AllocState × List WEvent :=
  let p := userPtr - HEADER_SIZE
  let bucket := bucket_for_request ((readHeader st p + HEADER_SIZE) % SIZE_T_MOD)
  let i := node_for_ptr st p bucket
  let r := free_loop FREE_FUEL i bucket st
  let addr := ptr_for_node r.2.2.1 r.1 r.2.1
  let l := getBucket r.2.2.1 r.2.1
  (setBucket r.2.2.1 r.2.1 (l ++ [addr]),
    r.2.2.2 ++ pushEvents r.2.2.1.max_ptr l addr)

/-- `buddy_init()`: set `base_ptr = max_ptr = sbrk(0)` (the parameter
`base`), commit room for the root's list entry (the C code ignores the return
value of this `update_max_ptr` call), empty every bucket list, and push the
single root block at `base`.  The split-bit array relies on static
zero-initialisation, so this models the first call. -/
def buddy_init (brkOk : Nat → Bool) (base : Nat) : AllocState × List WEvent :=
  let st0 : AllocState :=
    { buckets := List.replicate BUCKET_COUNT []
      node_is_split := 0
      base_ptr := base
      max_ptr := base
      mem := [] }
  let st1 := (update_max_ptr brkOk st0 (base + LIST_T_SIZE)).2
  let l := getBucket st1 0
  (setBucket st1 0 (l ++ [base]), pushEvents st1.max_ptr l base)

/-- A host that always grants `brk` requests. -/
def allTrue : Nat → Bool := fun _ => true

/-- The allocator state right after the first `buddy_init` with the host
break at address 0 and an always-granting host. -/
def st0 : AllocState := (buddy_init allTrue 0).1

/-- A host stub that refuses to commit anything beyond address 64
(i.e. beyond `BASE + 64` with the base at 0). -/
def brk64 : Nat → Bool := fun v => decide (v ≤ 64)

/-- The post-init state under the refusing host `brk64`. -/
def stW : AllocState := (buddy_init brk64 0).1

/-!  A concrete run, reachable from `buddy_init`, on which the byte-for-bit
slip of `flip_parent_is_split` becomes observable.  Six 8-byte allocations
occupy the blocks at 0,16,32,48,64,80 (returned pointers 8,24,40,56,72,88);
then some of them are released. -/

/-- State after `buddy_malloc 8` number 1 (block 0). -/
def stA : AllocState := (buddy_malloc allTrue st0 8).2.1

/-- State after `buddy_malloc 8` number 2 (block 16). -/
def stB : AllocState := (buddy_malloc allTrue stA 8).2.1

/-- State after `buddy_malloc 8` number 3 (block 32). -/
def stC : AllocState := (buddy_malloc allTrue stB 8).2.1

/-- State after `buddy_malloc 8` number 4 (block 48). -/
def stD : AllocState := (buddy_malloc allTrue stC 8).2.1

/-- State after `buddy_malloc 8` number 5 (block 64). -/
def stE : AllocState := (buddy_malloc allTrue stD 8).2.1

/-- State after `buddy_malloc 8` number 6 (block 80). -/
def stF : AllocState := (buddy_malloc allTrue stE 8).2.1

/-- State after releasing pointer 40 (block 32). -/
def stG : AllocState := (buddy_free stF 40).1

/-- State after additionally releasing pointer 72 (block 64). -/
def stH : AllocState := (buddy_free stG 72).1

/-- State after additionally releasing pointer 88 (block 80). -/
def stI : AllocState := (buddy_free stH 88).1

/-- State after additionally releasing pointer 56 (block 48). -/
def stJ : AllocState := (buddy_free stI 56).1

/-- State after additionally releasing pointer 24 (block 16). -/
def stK : AllocState := (buddy_free stJ 24).1

/-- State after additionally releasing pointer 8 (block 0): at this point all
six allocations have been released. -/
def stL : AllocState := (buddy_free stK 8).1

/-- State after allocating 8 bytes from `stJ`: the allocation returns
pointer 88 (block 80 again). -/
def stM : AllocState := (buddy_malloc allTrue stJ 8).2.1

/-- State after releasing that pointer 88 again. -/
def stN : AllocState := (buddy_free stM 88).1

/-- The committed-memory invariant tying the data structures to the
high-water mark: every free-list entry and every written header lies at or
above `base_ptr` and its 16 bytes (a `list_t` cell, which also covers the
8-byte header) end at or below `max_ptr`. -/
def committedInv (st : AllocState) : Prop :=
  (∀ b a, a ∈ getBucket st b → st.base_ptr ≤ a ∧ a + LIST_T_SIZE ≤ st.max_ptr)
  ∧ (∀ p v, (p, v) ∈ st.mem → st.base_ptr ≤ p ∧ p + LIST_T_SIZE ≤ st.max_ptr)

/-- Every recorded arena write ends at or below the high-water mark that was
current when the write happened. -/
def eventsBelowMax (evs : List WEvent) : Prop :=
  ∀ e ∈ evs, e.hi ≤ e.maxAt

/-!  Small facts about the state components of the basic operations. -/

theorem setBucket_node_is_split (st : AllocState) (b : Nat) (l : List Nat) :
    (setBucket st b l).node_is_split = st.node_is_split := rfl

theorem setBucket_max_ptr (st : AllocState) (b : Nat) (l : List Nat) :
    (setBucket st b l).max_ptr = st.max_ptr := rfl

theorem flip_max_ptr (st : AllocState) (i : Nat) :
    (flip_parent_is_split st i).2.max_ptr = st.max_ptr := rfl

theorem flip_buckets (st : AllocState) (i : Nat) :
    (flip_parent_is_split st i).2.buckets = st.buckets := rfl

theorem writeHeader_max_ptr (st : AllocState) (p v : Nat) :
    (writeHeader st p v).max_ptr = st.max_ptr := rfl

theorem writeHeader_buckets (st : AllocState) (p v : Nat) :
    (writeHeader st p v).buckets = st.buckets := rfl

theorem writeHeader_mem (st : AllocState) (p v : Nat) :
    (writeHeader st p v).mem = (p, v) :: st.mem := rfl

theorem getBucket_def (st : AllocState) (b : Nat) :
    getBucket st b = st.buckets.getD b [] := rfl

theorem getBucket_writeHeader (st : AllocState) (p v b : Nat) :
    getBucket (writeHeader st p v) b = getBucket st b := rfl

theorem split_loop_max_ptr (fuel : Nat) :
    ∀ i bucket st, (split_loop fuel i bucket st).2.2.1.max_ptr = st.max_ptr := by
  induction fuel with
  | zero => intro i bucket st; rfl
  | succ n ih =>
    intro i bucket st
    simpa [split_loop] using ih _ _ _

theorem split_loop_mem (fuel : Nat) :
    ∀ i bucket st, (split_loop fuel i bucket st).2.2.1.mem = st.mem := by
  induction fuel with
  | zero => intro i bucket st; rfl
  | succ n ih =>
    intro i bucket st
    simpa [split_loop] using ih _ _ _

theorem ite_max_ptr (c : Prop) [Decidable c] (s1 s2 : AllocState) :
    (if c then s1 else s2).max_ptr = if c then s1.max_ptr else s2.max_ptr := by
  split <;> rfl

theorem update_max_ptr_spec (brkOk : Nat → Bool) (st : AllocState) (v : Nat) :
    (update_max_ptr brkOk st v).2.max_ptr =
      if st.max_ptr < v ∧ brkOk v = true then v else st.max_ptr := by
  unfold update_max_ptr
  by_cases h1 : st.max_ptr < v
  · by_cases h2 : brkOk v = true <;> simp [h1, h2]
  · simp [h1]

theorem update_max_ptr_mono (brkOk : Nat → Bool) (st : AllocState) (v : Nat) :
    st.max_ptr ≤ (update_max_ptr brkOk st v).2.max_ptr := by
  rw [update_max_ptr_spec]
  split
  · omega
  · exact le_rfl

theorem mallocFound_max_mono (brkOk : Nat → Bool)
    (original request bucket : Nat) (st : AllocState) (ptr : Nat)
    (rest : List Nat) :
    st.max_ptr ≤ (mallocFound brkOk original request bucket st ptr rest).2.1.max_ptr := by
  have hm : ∀ v ok st1,
      update_max_ptr brkOk (setBucket st bucket rest) v = (ok, st1) →
      st.max_ptr ≤ st1.max_ptr := by
    intro v ok st1 h
    have hmono := update_max_ptr_mono brkOk (setBucket st bucket rest) v
    rw [h] at hmono
    exact hmono
  simp only [mallocFound]
  split <;> rename_i st1 heq
  · simpa [writeHeader_max_ptr, split_loop_max_ptr, ite_max_ptr, flip_max_ptr]
      using hm _ _ _ heq
  · simpa [setBucket_max_ptr] using hm _ _ _ heq

theorem malloc_loop_max_mono (brkOk : Nat → Bool) (original request : Nat) :
    ∀ b st, st.max_ptr ≤ (malloc_loop brkOk original request b st).2.1.max_ptr := by
  intro b
  induction b with
  | zero =>
    intro st
    unfold malloc_loop
    cases h : (getBucket st 0).getLast? with
    | none => simp
    | some ptr => simpa using mallocFound_max_mono brkOk original request 0 st ptr _
  | succ n ih =>
    intro st
    unfold malloc_loop
    cases h : (getBucket st (n+1)).getLast? with
    | none => simpa using ih st
    | some ptr => simpa using mallocFound_max_mono brkOk original request (n+1) st ptr _

theorem malloc_max_mono (brkOk : Nat → Bool) (st : AllocState) (request : Nat) :
    st.max_ptr ≤ (buddy_malloc brkOk st request).2.1.max_ptr := by
  simp only [buddy_malloc]
  split
  · exact le_rfl
  · exact malloc_loop_max_mono brkOk _ request _ st

theorem free_loop_max_ptr (fuel : Nat) :
    ∀ i bucket st, (free_loop fuel i bucket st).2.2.1.max_ptr = st.max_ptr := by
  induction fuel with
  | zero => intro i bucket st; rfl
  | succ n ih =>
    intro i bucket st
    cases i with
    | zero => rfl
    | succ m =>
      simp only [free_loop]
      split
      · rfl
      · simpa using ih _ _ _

theorem free_max_ptr (st : AllocState) (userPtr : Nat) :
    (buddy_free st userPtr).1.max_ptr = st.max_ptr := by
  unfold buddy_free
  simp [setBucket_max_ptr, free_loop_max_ptr]

theorem init_max_ptr (brkOk : Nat → Bool) (base : Nat) :
    base ≤ (buddy_init brkOk base).1.max_ptr := by
  unfold buddy_init
  simp only [setBucket_max_ptr]
  simpa using update_max_ptr_mono brkOk
    { buckets := List.replicate BUCKET_COUNT []
      node_is_split := 0
      base_ptr := base
      max_ptr := base
      mem := [] } (base + LIST_T_SIZE)

/-- How one `flip_parent_is_split` step changes the split-bit array: exactly
the parent's bit is toggled. -/
theorem testBit_flip (s p j : Nat) :
    (s ^^^ (1 <<< p)).testBit j = if j = p then !s.testBit j else s.testBit j := by
  rw [Nat.shiftLeft_eq, one_mul, Nat.testBit_xor]
  by_cases h : j = p
  · subst h; simp [Nat.testBit_two_pow_self]
  · simp [h, Nat.testBit_two_pow_of_ne (Ne.symm h)]

/-!  Restoration of the state when `buddy_malloc` fails. -/

theorem update_max_ptr_eq_false (brkOk : Nat → Bool) (st : AllocState)
    (v : Nat) (st' : AllocState) :
    update_max_ptr brkOk st v = (false, st') → st' = st := by
  unfold update_max_ptr
  split
  · split
    · intro h; exact Bool.noConfusion (congrArg Prod.fst h)
    · intro h; cases h; rfl
  · intro h; exact Bool.noConfusion (congrArg Prod.fst h)

theorem getBucket_lt_of_ne_nil {st : AllocState} {b : Nat}
    (h : getBucket st b ≠ []) : b < st.buckets.length := by
  by_contra hb
  push_neg at hb
  exact h (by simp [getBucket, List.getElem?_eq_none hb])

theorem getBucket_setBucket_self {st : AllocState} {b : Nat}
    (h : b < st.buckets.length) (l : List Nat) :
    getBucket (setBucket st b l) b = l := by
  simp [getBucket, setBucket, List.getElem?_set_self h]

theorem set_getD_self {α : Type} (l : List α) (n : Nat) (d : α) :
    l.set n (l[n]?.getD d) = l := by
  apply List.ext_getElem?
  intro i
  by_cases h : i = n
  · subst h
    by_cases hl : i < l.length
    · simp [List.getElem?_set_self hl, List.getElem?_eq_getElem hl]
    · rw [List.set_eq_of_length_le (Nat.le_of_not_lt hl)]
  · simp [List.getElem?_set_ne (Ne.symm h)]

theorem setBucket_setBucket_getBucket (st : AllocState) (b : Nat) (l : List Nat) :
    setBucket (setBucket st b l) b (getBucket st b) = st := by
  simp only [setBucket, getBucket, List.set_set, List.getD_eq_getElem?_getD]
  rw [set_getD_self]

theorem mallocFound_none_restore (brkOk : Nat → Bool)
    (original request bucket : Nat) (st : AllocState) (ptr : Nat)
    (hl : (getBucket st bucket).getLast? = some ptr) (st' : AllocState)
    (ev : List WEvent)
    (h : mallocFound brkOk original request bucket st ptr
          (getBucket st bucket).dropLast = (none, st', ev)) :
    st' = st := by
  have hne : getBucket st bucket ≠ [] := by
    intro hnil; rw [hnil] at hl; cases hl
  have hblt : bucket < st.buckets.length := getBucket_lt_of_ne_nil hne
  simp only [mallocFound] at h
  split at h
  · exact Option.noConfusion (congrArg Prod.fst h)
  · rename_i st1 heq
    have hu : st1 = setBucket st bucket (getBucket st bucket).dropLast :=
      update_max_ptr_eq_false brkOk _ _ _ heq
    subst hu
    rw [getBucket_setBucket_self (by simpa [setBucket] using hblt)] at h
    have hst' : st' = setBucket (setBucket st bucket (getBucket st bucket).dropLast)
        bucket ((getBucket st bucket).dropLast ++ [ptr]) :=
      (congrArg (fun r => r.2.1) h).symm
    rw [hst',
      show (getBucket st bucket).dropLast ++ [ptr] = getBucket st bucket from
        List.dropLast_append_getLast? ptr hl]
    exact setBucket_setBucket_getBucket st bucket (getBucket st bucket).dropLast

theorem malloc_loop_none_restore (brkOk : Nat → Bool) (original request : Nat) :
    ∀ b st st' ev,
      malloc_loop brkOk original request b st = (none, st', ev) → st' = st := by
  intro b
  induction b with
  | zero =>
    intro st st' ev h
    unfold malloc_loop at h
    cases hl : (getBucket st 0).getLast? with
    | none => rw [hl] at h; cases h; rfl
    | some ptr =>
      rw [hl] at h
      exact mallocFound_none_restore brkOk original request 0 st ptr hl st' ev h
  | succ n ih =>
    intro st st' ev h
    unfold malloc_loop at h
    cases hl : (getBucket st (n+1)).getLast? with
    | none => rw [hl] at h; exact ih st st' ev h
    | some ptr =>
      rw [hl] at h
      exact mallocFound_none_restore brkOk original request (n+1) st ptr hl st' ev h

theorem malloc_none_restore (brkOk : Nat → Bool) (st : AllocState)
    (request : Nat) (st' : AllocState) (ev : List WEvent)
    (h : buddy_malloc brkOk st request = (none, st', ev)) : st' = st := by
  simp only [buddy_malloc] at h
  split at h
  · exact (congrArg (fun r => r.2.1) h).symm
  · exact malloc_loop_none_restore brkOk _ request _ st st' ev h

theorem mallocFound_commit_refused (brkOk : Nat → Bool)
    (original request bucket : Nat) (st : AllocState) (ptr : Nat)
    (st1 : AllocState)
    (hu : update_max_ptr brkOk (setBucket st bucket (getBucket st bucket).dropLast)
        (ptr + (if bucket < original
          then (1 <<< (MAX_ALLOC_LOG2 - bucket)) / 2 + LIST_T_SIZE
          else 1 <<< (MAX_ALLOC_LOG2 - bucket))) = (false, st1)) :
    (mallocFound brkOk original request bucket st ptr
      (getBucket st bucket).dropLast).1 = none := by
  simp only [mallocFound]
  rw [hu]

theorem malloc_loop_refused (brkOk : Nat → Bool)
    (original request bucket : Nat) (st : AllocState) (ptr : Nat)
    (st1 : AllocState)
    (hl : (getBucket st bucket).getLast? = some ptr)
    (hu : update_max_ptr brkOk (setBucket st bucket (getBucket st bucket).dropLast)
        (ptr + (if bucket < original
          then (1 <<< (MAX_ALLOC_LOG2 - bucket)) / 2 + LIST_T_SIZE
          else 1 <<< (MAX_ALLOC_LOG2 - bucket))) = (false, st1)) :
    ∃ ev, malloc_loop brkOk original request bucket st = (none, st, ev) := by
  have hloop : malloc_loop brkOk original request bucket st
      = mallocFound brkOk original request bucket st ptr
          (getBucket st bucket).dropLast := by
    cases bucket with
    | zero => unfold malloc_loop; rw [hl]
    | succ n => unfold malloc_loop; rw [hl]
  have hfound := mallocFound_commit_refused brkOk original request bucket st ptr st1 hu
  rcases hres : mallocFound brkOk original request bucket st ptr
      (getBucket st bucket).dropLast with ⟨o, s2, ev⟩
  rw [hres] at hfound
  have ho : o = none := hfound
  subst ho
  have hs2 : s2 = st :=
    mallocFound_none_restore brkOk original request bucket st ptr hl s2 ev hres
  exact ⟨ev, by rw [hloop, hres, hs2]⟩

/-- C9: across every allocate, release, and commit operation the high-water
mark `max_ptr` never decreases (`buddy_free` never changes it at all, and
`buddy_init` only raises it above the fresh break), and `update_max_ptr`
advances it — to exactly the requested value — precisely when the request
exceeds the current mark and the host grants the `brk` call. -/
theorem c9_max_ptr_monotone :
    (∀ brkOk st request,
      st.max_ptr ≤ (buddy_malloc brkOk st request).2.1.max_ptr)
    ∧ (∀ st userPtr, (buddy_free st userPtr).1.max_ptr = st.max_ptr)
    ∧ (∀ brkOk st v,
        st.max_ptr ≤ (update_max_ptr brkOk st v).2.max_ptr
        ∧ (update_max_ptr brkOk st v).2.max_ptr =
            if st.max_ptr < v ∧ brkOk v = true then v else st.max_ptr)
    ∧ (∀ brkOk base, base ≤ (buddy_init brkOk base).1.max_ptr) :=
  ⟨malloc_max_mono, free_max_ptr,
   fun brkOk st v => ⟨update_max_ptr_mono brkOk st v, update_max_ptr_spec brkOk st v⟩,
   init_max_ptr⟩

/-- C10: for every node index `i > 0`, `flip_parent_is_split` changes exactly
one bit of the split-bit array — the bit of the parent node `(i - 1) / 2` —
and leaves every other split bit, the free lists, `base_ptr`, `max_ptr` and
the block headers unchanged. -/
theorem c10_flip_parent_frame (st : AllocState) (i : Nat) (_hi : 0 < i) :
    ((flip_parent_is_split st i).2.node_is_split.testBit ((i - 1) / 2)
        = !st.node_is_split.testBit ((i - 1) / 2))
    ∧ (∀ j, j ≠ (i - 1) / 2 →
        (flip_parent_is_split st i).2.node_is_split.testBit j
          = st.node_is_split.testBit j)
    ∧ (flip_parent_is_split st i).2.buckets = st.buckets
    ∧ (flip_parent_is_split st i).2.base_ptr = st.base_ptr
    ∧ (flip_parent_is_split st i).2.max_ptr = st.max_ptr
    ∧ (flip_parent_is_split st i).2.mem = st.mem := by
  refine ⟨?_, ?_, rfl, rfl, rfl, rfl⟩
  · simp only [flip_parent_is_split]
    rw [testBit_flip]
    simp
  · intro j hj
    simp only [flip_parent_is_split]
    rw [testBit_flip]
    simp [hj]

/-- Witness for C10 at the concrete node index 5 (parent 2) on the empty
state. -/
theorem c10_flip_parent_frame_witness :
    (flip_parent_is_split ⟨[], 0, 0, 0, []⟩ 5).2.node_is_split.testBit 2
      = !(⟨[], 0, 0, 0, []⟩ : AllocState).node_is_split.testBit 2 :=
  (c10_flip_parent_frame ⟨[], 0, 0, 0, []⟩ 5 (by decide)).1

/-- C4: whenever the commit primitive refuses the requested extension during
allocate, the iteration immediately returns null with the pre-call state: the
popped block is pushed back onto the bucket it was popped from and nothing
else changed — indeed every null return of `buddy_malloc` leaves the state
exactly as it was before the call. -/
theorem c4_commit_refusal_rollback :
    (∀ brkOk st request st' ev,
        buddy_malloc brkOk st request = (none, st', ev) → st' = st)
    ∧ (∀ brkOk original request bucket st ptr st1,
        (getBucket st bucket).getLast? = some ptr →
        update_max_ptr brkOk (setBucket st bucket (getBucket st bucket).dropLast)
          (ptr + (if bucket < original
            then (1 <<< (MAX_ALLOC_LOG2 - bucket)) / 2 + LIST_T_SIZE
            else 1 <<< (MAX_ALLOC_LOG2 - bucket))) = (false, st1) →
        ∃ ev, malloc_loop brkOk original request bucket st = (none, st, ev)) :=
  ⟨malloc_none_restore,
   fun brkOk original request bucket st ptr st1 hl hu =>
     malloc_loop_refused brkOk original request bucket st ptr st1 hl hu⟩

/-- Witness for C4: with the commit stub refusing beyond `BASE + 64`, the
8-byte allocation from the post-init state fails and the state is returned
unchanged. -/
theorem c4_commit_refusal_rollback_witness :
    (buddy_malloc brk64 stW 8).2.1 = stW :=
  c4_commit_refusal_rollback.1 brk64 stW 8
    ((buddy_malloc brk64 stW 8).2.1) ((buddy_malloc brk64 stW 8).2.2)
    (by decide)

theorem mallocFound_some_header (brkOk : Nat → Bool)
    (original request bucket : Nat) (st : AllocState) (ptr : Nat)
    (rest : List Nat) (q : Nat) (st' : AllocState) (ev : List WEvent)
    (h : mallocFound brkOk original request bucket st ptr rest
          = (some q, st', ev)) :
    q = ptr + HEADER_SIZE ∧ st'.mem.lookup ptr = some request := by
  simp only [mallocFound] at h
  split at h
  · constructor
    · exact (Option.some.inj (congrArg Prod.fst h)).symm
    · have hs := congrArg (fun r => r.2.1) h
      simp only at hs
      rw [← hs, writeHeader_mem]
      simp [List.lookup]
  · exact Option.noConfusion (congrArg Prod.fst h)

theorem malloc_loop_some_header (brkOk : Nat → Bool) (original request : Nat) :
    ∀ b st q st' ev,
      malloc_loop brkOk original request b st = (some q, st', ev) →
      ∃ p, q = p + HEADER_SIZE ∧ st'.mem.lookup p = some request := by
  intro b
  induction b with
  | zero =>
    intro st q st' ev h
    unfold malloc_loop at h
    cases hl : (getBucket st 0).getLast? with
    | none => rw [hl] at h; exact Option.noConfusion (congrArg Prod.fst h)
    | some ptr =>
      rw [hl] at h
      exact ⟨ptr, mallocFound_some_header brkOk original request 0 st ptr _ q st' ev h⟩
  | succ n ih =>
    intro st q st' ev h
    unfold malloc_loop at h
    cases hl : (getBucket st (n+1)).getLast? with
    | none => rw [hl] at h; exact ih st q st' ev h
    | some ptr =>
      rw [hl] at h
      exact ⟨ptr, mallocFound_some_header brkOk original request (n+1) st ptr _ q st' ev h⟩

/-- C7: whenever `buddy_malloc` succeeds with address `q`, the returned
address is the base of the selected block plus the 8-byte header, and the
header — the 8 bytes at `q - 8` — stores exactly the original request value
(not the rounded-up class size). -/
theorem c7_header_stores_request (brkOk : Nat → Bool) (st : AllocState)
    (request q : Nat) (st' : AllocState) (ev : List WEvent)
    (h : buddy_malloc brkOk st request = (some q, st', ev)) :
    ∃ p, q = p + HEADER_SIZE ∧ st'.mem.lookup p = some request := by
  simp only [buddy_malloc] at h
  split at h
  · exact Option.noConfusion (congrArg Prod.fst h)
  · exact malloc_loop_some_header brkOk _ request _ st q st' ev h

/-- Witness for C7: the first 8-byte allocation from the post-init state
returns address 8 and stores the request 8 in the header at address 0. -/
theorem c7_header_stores_request_witness :
    ∃ p, (8 : Nat) = p + HEADER_SIZE ∧
      (buddy_malloc allTrue st0 8).2.1.mem.lookup p = some 8 :=
  c7_header_stores_request allTrue st0 8 8
    ((buddy_malloc allTrue st0 8).2.1) ((buddy_malloc allTrue st0 8).2.2)
    (by decide)

/-- C3 (amended): for every request whose `size_t` sum `request + 8` does not
wrap (`request + 8 < 2^64`), if `request + 8 > ARENA` then `buddy_malloc`
returns null and leaves the entire state — free lists, split bits, header
bytes and high-water mark — unchanged, with no arena write. -/
theorem c3_oversize_returns_null (brkOk : Nat → Bool) (st : AllocState)
    (request : Nat) (h1 : MAX_ALLOC < request + HEADER_SIZE)
    (h2 : request + HEADER_SIZE < SIZE_T_MOD) :
    buddy_malloc brkOk st request = (none, st, []) := by
  simp only [buddy_malloc]
  rw [Nat.mod_eq_of_lt h2]
  simp [h1]

/-- C3 counterexample: at `request = 2^64 - 8` the `size_t` sum
`request + HEADER_SIZE` wraps to 0, so the oversize guard does not fire even
though `request + 8 > ARENA` over the unbounded integers, and the allocation
succeeds (returning address 8) instead of returning null. -/
theorem c3_counterexample :
    MAX_ALLOC < (SIZE_T_MOD - HEADER_SIZE) + HEADER_SIZE
    ∧ (buddy_malloc allTrue st0 (SIZE_T_MOD - HEADER_SIZE)).1 = some 8 :=
  ⟨by decide, by decide⟩

/-- Witness for the amended C3 at `request = 2^31`. -/
theorem c3_oversize_returns_null_witness :
    MAX_ALLOC < 2147483648 + HEADER_SIZE
    ∧ 2147483648 + HEADER_SIZE < SIZE_T_MOD
    ∧ buddy_malloc allTrue st0 2147483648 = (none, st0, []) :=
  ⟨by decide, by decide,
   c3_oversize_returns_null allTrue st0 2147483648 (by decide) (by decide)⟩

/-- C1 fails on the code: releasing pointer 88 from the reachable state `stH`
frees block 80, i.e. leaf node 134217732 of bucket 27, whose parent is node
67108865.  Toggling the parent's split bit clears it (it is `false` in the
post-release state `stI`), so by the claim the release must remove the buddy
(block 64) and ascend; instead the code stops at once and enlists block 80 on
bucket 27 — the free list afterwards holds blocks 32, 64 and 80 — because
`flip_parent_is_split` returns the whole byte `node_is_split[8388608]`, which
stays non-zero: the bit of the neighbouring node 67108864 is set in `stH`. -/
theorem c1_code_bug_stop_with_bit_clear :
    bucket_for_request ((readHeader stH (88 - HEADER_SIZE) + HEADER_SIZE) % SIZE_T_MOD) = 27
    ∧ node_for_ptr stH 80 27 = 134217732
    ∧ (134217732 - 1) / 2 = 67108865
    ∧ stH.node_is_split.testBit 67108864 = true
    ∧ (free_loop FREE_FUEL 134217732 27 stH).1 = 134217732
    ∧ stI.node_is_split.testBit 67108865 = false
    ∧ getBucket stI 27 = [32, 64, 80] :=
  ⟨by decide, by decide, by decide, by decide, by decide, by decide, by decide⟩

/-- C2 fails on the code: after six successful 8-byte allocations from the
post-init state and the release of all six results (order 40, 72, 88, 56, 24,
8), the final state is not the post-initialize state: bucket 0's free list is
empty instead of holding the single entry at `BASE`, bucket 27 still holds
the two unmerged buddies 64 and 80, and the split-bit array is not all
zero. -/
theorem c2_code_bug_release_all_not_initial :
    stL.buckets ≠ st0.buckets
    ∧ getBucket stL 0 = []
    ∧ getBucket stL 27 = [64, 80]
    ∧ stL.node_is_split ≠ 0
    ∧ getBucket st0 0 = [0]
    ∧ st0.node_is_split = 0 :=
  ⟨by decide, by decide, by decide, by decide, by decide, by decide⟩

/-- C6 fails on the code: from the reachable state `stJ`, the pattern
`p = allocate(8); release(p); q = allocate(8)` — with no other operation in
between and both allocations succeeding — yields `p = 88` but `q = 40`.
The release of 88 merges blocks 64/80 and 96 away (the byte check happens to
pass there), so the second allocation splits the 32-byte block at 32 instead
of reusing block 80. -/
theorem c6_code_bug_lifo_reuse_fails :
    (buddy_malloc allTrue stJ 8).1 = some 88
    ∧ (buddy_free stM 88).1 = stN
    ∧ (buddy_malloc allTrue stN 8).1 = some 40 :=
  ⟨by decide, rfl, by decide⟩

/-!  The split cascade of C5, proved for an arbitrary base address. -/

theorem getBucket_setBucket (st : AllocState) (b : Nat) (l : List Nat) (m : Nat)
    (hb : b < st.buckets.length) :
    getBucket (setBucket st b l) m = if m = b then l else getBucket st m := by
  by_cases h : m = b
  · subst h
    simp [getBucket, setBucket, List.getElem?_set_self hb]
  · simp [getBucket, setBucket, List.getElem?_set_ne (fun hb' => h hb'.symm), h]

theorem setBucket_length (st : AllocState) (b : Nat) (l : List Nat) :
    (setBucket st b l).buckets.length = st.buckets.length := by
  simp [setBucket]

theorem split_loop_succ_state (n i k : Nat) (st : AllocState) :
    (split_loop (n+1) i k st).2.2.1 =
      (split_loop n (i*2+1) (k+1)
        (setBucket (flip_parent_is_split st (i*2+1)).2 (k+1)
          (getBucket (flip_parent_is_split st (i*2+1)).2 (k+1)
            ++ [ptr_for_node (flip_parent_is_split st (i*2+1)).2 (i*2+1+1) (k+1)]))).2.2.1 :=
  rfl

/-- The split cascade, pointwise: starting at the left-spine node `2^k - 1`
of bucket `k` with the buckets `k+1 .. k+fuel` all empty, after the loop each
of those buckets holds exactly the right sibling block at
`base + 2^(MAX_ALLOC_LOG2 - m)`, and every other bucket is unchanged. -/
theorem split_loop_buckets (fuel : Nat) :
    ∀ k st, st.buckets.length = BUCKET_COUNT →
      k + fuel ≤ MAX_ALLOC_LOG2 - MIN_ALLOC_LOG2 →
      (∀ j, 1 ≤ j → j ≤ fuel → getBucket st (k + j) = []) →
      (∀ m, getBucket ((split_loop fuel (2^k - 1) k st).2.2.1) m =
        if k < m ∧ m ≤ k + fuel
        then [st.base_ptr + (1 <<< (MAX_ALLOC_LOG2 - m))]
        else getBucket st m) := by
  induction fuel with
  | zero =>
    intro k st _ _ _ m
    have hc : ¬ (k < m ∧ m ≤ k + 0) := by omega
    rw [if_neg hc]
    rfl
  | succ n ih =>
    intro k st hlen hk h m
    have h1p : 1 ≤ 2^k := Nat.one_le_two_pow
    have hpow : (2^k - 1) * 2 + 1 = 2^(k+1) - 1 := by
      have h2 : 2^(k+1) = 2 * 2^k := by rw [Nat.pow_succ]; ring
      omega
    have hkb : k + 1 < BUCKET_COUNT := by
      have e1 : BUCKET_COUNT = 28 := by decide
      have e2 : MAX_ALLOC_LOG2 - MIN_ALLOC_LOG2 = 27 := by decide
      omega
    rw [split_loop_succ_state, hpow]
    have hfl : (flip_parent_is_split st (2^(k+1) - 1)).2.buckets = st.buckets :=
      flip_buckets st _
    have hl1 : getBucket (flip_parent_is_split st (2^(k+1) - 1)).2 (k+1) = [] := by
      show (flip_parent_is_split st (2^(k+1) - 1)).2.buckets.getD (k+1) [] = []
      rw [hfl]
      exact h 1 (by omega) (by omega)
    have hsib : ptr_for_node (flip_parent_is_split st (2^(k+1) - 1)).2
        ((2^(k+1) - 1) + 1) (k+1)
        = st.base_ptr + (1 <<< (MAX_ALLOC_LOG2 - (k+1))) := by
      show (flip_parent_is_split st (2^(k+1) - 1)).2.base_ptr
          + (((2^(k+1) - 1) + 1 + 1 - (1 <<< (k+1))) <<< (MAX_ALLOC_LOG2 - (k+1)))
        = st.base_ptr + (1 <<< (MAX_ALLOC_LOG2 - (k+1)))
      have hb : (flip_parent_is_split st (2^(k+1) - 1)).2.base_ptr = st.base_ptr := rfl
      rw [hb, Nat.shiftLeft_eq 1 (k+1), one_mul]
      congr 2
      omega
    set st2 := setBucket (flip_parent_is_split st (2^(k+1) - 1)).2 (k+1)
      (getBucket (flip_parent_is_split st (2^(k+1) - 1)).2 (k+1)
        ++ [ptr_for_node (flip_parent_is_split st (2^(k+1) - 1)).2 ((2^(k+1) - 1) + 1) (k+1)])
      with hst2
    have hlen2 : st2.buckets.length = BUCKET_COUNT := by
      rw [hst2, setBucket_length]
      show st.buckets.length = BUCKET_COUNT
      exact hlen
    have hget2 : ∀ m', getBucket st2 m' =
        if m' = k + 1 then [st.base_ptr + (1 <<< (MAX_ALLOC_LOG2 - (k+1)))]
        else getBucket st m' := by
      intro m'
      rw [hst2, getBucket_setBucket _ _ _ _
        (by rw [show ((flip_parent_is_split st (2^(k+1) - 1)).2).buckets.length
              = st.buckets.length from congrArg List.length hfl]; omega)]
      rw [hl1, hsib]
      by_cases hm' : m' = k + 1
      · simp [hm']
      · simp only [if_neg hm']
        show (flip_parent_is_split st (2^(k+1) - 1)).2.buckets.getD m' [] = getBucket st m'
        rw [hfl]
        rfl
    have hemp2 : ∀ j, 1 ≤ j → j ≤ n → getBucket st2 ((k+1) + j) = [] := by
      intro j hj1 hj2
      rw [hget2, if_neg (by omega)]
      have hh := h (1 + j) (by omega) (by omega)
      rw [show k + (1 + j) = k + 1 + j by omega] at hh
      exact hh
    have hbase2 : st2.base_ptr = st.base_ptr := rfl
    rw [ih (k+1) st2 hlen2 (by omega) hemp2 m, hbase2, hget2 m]
    by_cases hc1 : k + 1 < m ∧ m ≤ k + 1 + n
    · rw [if_pos hc1, if_pos (by omega)]
    · rw [if_neg hc1]
      by_cases hc2 : m = k + 1
      · rw [if_pos hc2, if_pos (by omega), hc2]
      · rw [if_neg hc2, if_neg (by omega)]

theorem mallocFound_commit_ok_fst (brkOk : Nat → Bool)
    (original request bucket : Nat) (st : AllocState) (ptr : Nat)
    (rest : List Nat) (st1 : AllocState)
    (hu : update_max_ptr brkOk (setBucket st bucket rest)
        (ptr + (if bucket < original
          then (1 <<< (MAX_ALLOC_LOG2 - bucket)) / 2 + LIST_T_SIZE
          else 1 <<< (MAX_ALLOC_LOG2 - bucket))) = (true, st1)) :
    (mallocFound brkOk original request bucket st ptr rest).1
      = some (ptr + HEADER_SIZE) := by
  simp only [mallocFound]
  rw [hu]

theorem mallocFound_commit_ok_state (brkOk : Nat → Bool)
    (original request bucket : Nat) (st : AllocState) (ptr : Nat)
    (rest : List Nat) (st1 : AllocState)
    (hu : update_max_ptr brkOk (setBucket st bucket rest)
        (ptr + (if bucket < original
          then (1 <<< (MAX_ALLOC_LOG2 - bucket)) / 2 + LIST_T_SIZE
          else 1 <<< (MAX_ALLOC_LOG2 - bucket))) = (true, st1)) :
    (mallocFound brkOk original request bucket st ptr rest).2.1
      = writeHeader
          (split_loop (original - bucket) (node_for_ptr st1 ptr bucket) bucket
            (if node_for_ptr st1 ptr bucket ≠ 0
             then (flip_parent_is_split st1 (node_for_ptr st1 ptr bucket)).2
             else st1)).2.2.1 ptr request := by
  simp only [mallocFound]
  rw [hu]

theorem init_eq (base : Nat) :
    (buddy_init allTrue base).1 =
      { buckets := (List.replicate BUCKET_COUNT []).set 0 [base]
        node_is_split := 0
        base_ptr := base
        max_ptr := base + LIST_T_SIZE
        mem := [] } := by
  have h16 : base < base + LIST_T_SIZE := by
    have hp : (0:Nat) < LIST_T_SIZE := by decide
    omega
  simp only [buddy_init, update_max_ptr, setBucket, getBucket]
  rw [if_pos h16]
  simp only [allTrue, if_pos]
  rfl

theorem malloc_loop_skip_to_zero (brkOk : Nat → Bool) (original request : Nat) :
    ∀ b st, (∀ k, 1 ≤ k → k ≤ b → getBucket st k = []) →
      malloc_loop brkOk original request b st
        = malloc_loop brkOk original request 0 st := by
  intro b
  induction b with
  | zero => intro st _; rfl
  | succ n ih =>
    intro st h
    have hl : (getBucket st (n+1)).getLast? = none := by
      rw [h (n+1) (by omega) (by omega)]; rfl
    rw [show malloc_loop brkOk original request (n+1) st
        = (match (getBucket st (n+1)).getLast? with
          | none => malloc_loop brkOk original request n st
          | some ptr => mallocFound brkOk original request (n+1) st ptr
              (getBucket st (n+1)).dropLast) from rfl, hl]
    exact ih st (fun k h1 h2 => h k h1 (by omega))

/-- C5: from the post-initialize state at any base address, `allocate(8)`
returns `BASE + 8`; afterwards bucket 0's free list is empty and each bucket
`b` from 1 to `BUCKET_COUNT - 1` holds exactly one free-list entry — the
right sibling produced by the split at that level, the block at
`BASE + 2^(MAX_ALLOC_LOG2 - b)`. -/
theorem c5_split_cascade (base : Nat) :
    (buddy_malloc allTrue (buddy_init allTrue base).1 8).1 = some (base + 8)
    ∧ getBucket (buddy_malloc allTrue (buddy_init allTrue base).1 8).2.1 0 = []
    ∧ (∀ b, 1 ≤ b → b ≤ BUCKET_COUNT - 1 →
        getBucket (buddy_malloc allTrue (buddy_init allTrue base).1 8).2.1 b
          = [base + (1 <<< (MAX_ALLOC_LOG2 - b))]) := by
  have hinit := init_eq base
  set stE : AllocState :=
    { buckets := (List.replicate BUCKET_COUNT []).set 0 [base]
      node_is_split := 0
      base_ptr := base
      max_ptr := base + LIST_T_SIZE
      mem := [] } with hstE
  have e1 : buddy_malloc allTrue (buddy_init allTrue base).1 8
      = malloc_loop allTrue 27 8 27 stE := by
    rw [hinit]
    simp only [buddy_malloc]
    rw [if_neg (by decide)]
    rw [show bucket_for_request ((8 + HEADER_SIZE) % SIZE_T_MOD) = 27 from by decide]
  have hemptyE : ∀ k, 1 ≤ k → getBucket stE k = [] := by
    intro k hk
    show ((List.replicate BUCKET_COUNT []).set 0 [base]).getD k [] = []
    rw [List.getD_eq_getElem?_getD, List.getElem?_set_ne (by omega),
      List.getElem?_replicate]
    split <;> rfl
  have e2 : malloc_loop allTrue 27 8 27 stE = malloc_loop allTrue 27 8 0 stE :=
    malloc_loop_skip_to_zero allTrue 27 8 27 stE (fun k h1 _ => hemptyE k h1)
  have hg0 : getBucket stE 0 = [base] := by
    show ((List.replicate BUCKET_COUNT []).set 0 [base]).getD 0 [] = [base]
    rw [List.getD_eq_getElem?_getD, List.getElem?_set_self (by decide)]
    rfl
  have e3 : malloc_loop allTrue 27 8 0 stE
      = mallocFound allTrue 27 8 0 stE base [] := by
    rw [show malloc_loop allTrue 27 8 0 stE
        = (match (getBucket stE 0).getLast? with
           | none => (none, stE, [])
           | some ptr => mallocFound allTrue 27 8 0 stE ptr
               (getBucket stE 0).dropLast) from rfl]
    rw [hg0]
    rfl
  set stU : AllocState :=
    { buckets := ((List.replicate BUCKET_COUNT []).set 0 [base]).set 0 []
      node_is_split := 0
      base_ptr := base
      max_ptr := base + 1073741840
      mem := [] } with hstU
  have hu : update_max_ptr allTrue (setBucket stE 0 [])
      (base + (if 0 < 27
        then (1 <<< (MAX_ALLOC_LOG2 - 0)) / 2 + LIST_T_SIZE
        else 1 <<< (MAX_ALLOC_LOG2 - 0))) = (true, stU) := by
    rw [if_pos (by decide)]
    rw [show (1 <<< (MAX_ALLOC_LOG2 - 0)) / 2 + LIST_T_SIZE = 1073741840 from by decide]
    unfold update_max_ptr
    rw [if_pos (show (setBucket stE 0 []).max_ptr < base + 1073741840 from by
      show base + LIST_T_SIZE < base + 1073741840
      have h16 : LIST_T_SIZE = 16 := by decide
      omega)]
    rfl
  have e4fst : (mallocFound allTrue 27 8 0 stE base []).1
      = some (base + HEADER_SIZE) :=
    mallocFound_commit_ok_fst allTrue 27 8 0 stE base [] stU hu
  have hi0 : node_for_ptr stU base 0 = 0 := by
    show ((base - stU.base_ptr) >>> (MAX_ALLOC_LOG2 - 0)) + (1 <<< 0) - 1 = 0
    rw [show stU.base_ptr = base from rfl, Nat.sub_self]
    rfl
  have e4st : (mallocFound allTrue 27 8 0 stE base []).2.1
      = writeHeader (split_loop 27 0 0 stU).2.2.1 base 8 := by
    have h := mallocFound_commit_ok_state allTrue 27 8 0 stE base [] stU hu
    rw [hi0, if_neg (show ¬((0:Nat) ≠ 0) from by decide), Nat.sub_zero] at h
    exact h
  have hlenU : stU.buckets.length = BUCKET_COUNT := by
    show (((List.replicate BUCKET_COUNT []).set 0 [base]).set 0 []).length = BUCKET_COUNT
    simp
  have hempU : ∀ j, 1 ≤ j → j ≤ 27 → getBucket stU (0 + j) = [] := by
    intro j h1 _
    show (((List.replicate BUCKET_COUNT []).set 0 [base]).set 0 []).getD (0 + j) [] = []
    rw [List.getD_eq_getElem?_getD, List.getElem?_set_ne (by omega),
      List.getElem?_set_ne (by omega), List.getElem?_replicate]
    split <;> rfl
  have hc := split_loop_buckets 27 0 stU hlenU (by decide) hempU
  norm_num at hc
  refine ⟨?_, ?_, ?_⟩
  · rw [e1, e2, e3, e4fst]
    rfl
  · rw [e1, e2, e3, e4st, getBucket_writeHeader, hc 0]
    norm_num
    rw [hstU]
    show (((List.replicate BUCKET_COUNT []).set 0 [base]).set 0 []).getD 0 [] = []
    rw [List.getD_eq_getElem?_getD, List.getElem?_set_self
      (by rw [List.length_set, List.length_replicate]; decide)]
    rfl
  · intro b hb1 hb2
    have hb27 : b ≤ 27 := by
      have h1 : BUCKET_COUNT - 1 = 27 := by decide
      omega
    rw [e1, e2, e3, e4st, getBucket_writeHeader, hc b, if_pos (by omega)]

/-- Witness for C5 at base 0 and bucket 27: the 16-byte bucket holds exactly
the right sibling block at 16. -/
theorem c5_split_cascade_witness :
    getBucket (buddy_malloc allTrue (buddy_init allTrue 0).1 8).2.1 27
      = [0 + (1 <<< (MAX_ALLOC_LOG2 - 27))] :=
  (c5_split_cascade 0).2.2 27 (by decide) (by decide)

theorem eventsBelowMax_nil : eventsBelowMax [] := by
  intro e he; cases he

theorem eventsBelowMax_append {l1 l2 : List WEvent} :
    eventsBelowMax l1 → eventsBelowMax l2 → eventsBelowMax (l1 ++ l2) := by
  intro h1 h2 e he
  rcases List.mem_append.mp he with h | h
  · exact h1 e h
  · exact h2 e h

theorem pushEvents_spec (maxAt : Nat) (l : List Nat) (entry : Nat)
    (hentry : entry + LIST_T_SIZE ≤ maxAt)
    (hl : ∀ a ∈ l, a + LIST_T_SIZE ≤ maxAt) :
    eventsBelowMax (pushEvents maxAt l entry) := by
  intro e he
  unfold pushEvents at he
  rcases List.mem_cons.mp he with rfl | he
  · exact hentry
  · revert he
    split
    · rename_i back hback
      intro he
      rcases List.mem_singleton.mp he with rfl
      have hb := hl back (List.mem_of_getLast?_eq_some hback)
      simp only []
      omega
    · intro he; cases he

theorem popEvents_spec (maxAt : Nat) (l : List Nat)
    (hl : ∀ a ∈ l, a + LIST_T_SIZE ≤ maxAt) :
    eventsBelowMax (popEvents maxAt l) := by
  intro e he
  unfold popEvents at he
  revert he
  split
  · rename_i p hp
    intro he
    rcases List.mem_singleton.mp he with rfl
    have hpl : p ∈ l := List.dropLast_subset l (List.mem_of_getLast?_eq_some hp)
    have hb := hl p hpl
    simp only []
    omega
  · intro he; cases he

theorem eraseEvents_spec (maxAt : Nat) (l : List Nat) (a : Nat)
    (hl : ∀ x ∈ l, x + LIST_T_SIZE ≤ maxAt) :
    eventsBelowMax (eraseEvents maxAt l a) := by
  intro e he
  unfold eraseEvents at he
  revert he
  split
  · intro he; cases he
  · rename_i i _
    intro he
    rcases List.mem_append.mp he with h | h
    · revert h
      split
      · intro h; cases h
      · rename_i j
        split
        · rename_i p hp
          intro h
          rcases List.mem_singleton.mp h with rfl
          have hb := hl p (List.getElem?_mem hp)
          simp only []
          omega
        · intro h; cases h
    · revert h
      split
      · rename_i nx hnx
        intro h
        rcases List.mem_singleton.mp h with rfl
        have hb := hl nx (List.getElem?_mem hnx)
        have h16 : LIST_T_SIZE = 16 := rfl
        simp only []
        omega
      · intro h; cases h

theorem ptr_for_node_ge (st : AllocState) (i b : Nat) :
    st.base_ptr ≤ ptr_for_node st i b :=
  Nat.le_add_right _ _

theorem left_child_addr (st : AllocState) (i b : Nat)
    (hb : b + 1 ≤ MAX_ALLOC_LOG2) :
    ptr_for_node st (i*2+1) (b+1) = ptr_for_node st i b := by
  have hM : MAX_ALLOC_LOG2 = 31 := rfl
  unfold ptr_for_node
  congr 1
  simp only [Nat.shiftLeft_eq, one_mul]
  have hP1 : 1 ≤ 2^b := Nat.one_le_two_pow
  have hPP : 2^(b+1) = 2 * 2^b := by rw [Nat.pow_succ]; ring
  have hQ : 2^(MAX_ALLOC_LOG2 - b) = 2 * 2^(MAX_ALLOC_LOG2 - (b+1)) := by
    rw [show MAX_ALLOC_LOG2 - b = (MAX_ALLOC_LOG2 - (b+1)) + 1 by omega, Nat.pow_succ]
    ring
  rcases le_or_lt (2^b) (i+1) with hle | hlt
  · rw [show i*2+1+1 - 2^(b+1) = 2*(i+1-2^b) by omega, hQ]
    ring
  · rw [show i*2+1+1 - 2^(b+1) = 0 by omega, show i+1-2^b = 0 by omega]
    simp

theorem sib_addr_le (st : AllocState) (i b : Nat)
    (hb : b + 1 ≤ MAX_ALLOC_LOG2) :
    ptr_for_node st (i*2+1+1) (b+1)
      ≤ ptr_for_node st i b + (1 <<< (MAX_ALLOC_LOG2 - (b+1))) := by
  have hM : MAX_ALLOC_LOG2 = 31 := rfl
  unfold ptr_for_node
  simp only [Nat.shiftLeft_eq, one_mul]
  have hP1 : 1 ≤ 2^b := Nat.one_le_two_pow
  have hPP : 2^(b+1) = 2 * 2^b := by rw [Nat.pow_succ]; ring
  have hQ : 2^(MAX_ALLOC_LOG2 - b) = 2 * 2^(MAX_ALLOC_LOG2 - (b+1)) := by
    rw [show MAX_ALLOC_LOG2 - b = (MAX_ALLOC_LOG2 - (b+1)) + 1 by omega, Nat.pow_succ]
    ring
  rcases le_or_lt (2^b) (i+1) with hle | hlt
  · rw [show i*2+1+1+1 - 2^(b+1) = 2*(i+1-2^b) + 1 by omega, hQ]
    have : (2*(i+1-2^b) + 1) * 2^(MAX_ALLOC_LOG2 - (b+1))
        = (i+1-2^b) * (2 * 2^(MAX_ALLOC_LOG2 - (b+1))) + 2^(MAX_ALLOC_LOG2 - (b+1)) := by
      ring
    omega
  · have hodd : i*2+1+1+1 - 2^(b+1) = 0 := by
      -- 2i+3 < 2^(b+1) since 2i+2 < 2^(b+1) and parity forbids equality at 2i+3
      rcases Nat.lt_or_ge (i*2+3) (2^(b+1)) with h3 | h3
      · omega
      · exfalso
        have he : i*2+3 = 2^(b+1) := by omega
        have : 2^(b+1) % 2 = 0 := by
          rw [hPP]; omega
        omega
    rw [hodd]
    simp only [Nat.zero_mul]
    omega

theorem even_xor_one (n : Nat) : (2 * n) ^^^ 1 = 2 * n + 1 := by
  apply Nat.eq_of_testBit_eq
  intro i
  cases i with
  | zero =>
    rw [Nat.testBit_xor]
    simp [Nat.testBit_zero, Nat.mul_add_mod, Nat.add_mul_mod_self_left]
  | succ k =>
    rw [Nat.testBit_xor, Nat.testBit_succ, Nat.testBit_succ, Nat.testBit_succ]
    rw [show (2 * n) / 2 = n by omega, show (2 * n + 1) / 2 = n by omega,
      show (1 : Nat) / 2 = 0 by omega]
    simp

theorem odd_xor_one (n : Nat) : (2 * n + 1) ^^^ 1 = 2 * n := by
  have h := even_xor_one n
  have h2 : ((2 * n) ^^^ 1) ^^^ 1 = 2 * n := by
    rw [Nat.xor_assoc]
    simp
  rw [h] at h2
  exact h2

theorem committedInv_transport {st st' : AllocState} (h : committedInv st)
    (hb : st'.buckets = st.buckets) (hm : st'.mem = st.mem)
    (hbase : st'.base_ptr = st.base_ptr) (hmax : st.max_ptr ≤ st'.max_ptr) :
    committedInv st' := by
  constructor
  · intro b a ha
    have ha' : a ∈ getBucket st b := by
      rw [getBucket_def, ← hb]
      exact ha
    have := h.1 b a ha'
    rw [hbase]
    omega
  · intro p v hp
    rw [hm] at hp
    have := h.2 p v hp
    rw [hbase]
    omega

theorem mem_getBucket_setBucket {st : AllocState} {b : Nat} {l : List Nat}
    {m a : Nat} (h : a ∈ getBucket (setBucket st b l) m) :
    a ∈ l ∨ a ∈ getBucket st m := by
  rw [getBucket_def] at h
  rw [getBucket_def]
  simp only [setBucket] at h
  rw [List.getD_eq_getElem?_getD, List.getElem?_set] at h
  by_cases hbm : b = m
  · rw [if_pos hbm] at h
    by_cases hlen : b < st.buckets.length
    · rw [if_pos hlen] at h
      exact Or.inl h
    · rw [if_neg hlen] at h
      cases h
  · rw [if_neg hbm] at h
    right
    rw [List.getD_eq_getElem?_getD]
    exact h

theorem committedInv_setBucket {st : AllocState} (h : committedInv st)
    (b : Nat) {l : List Nat}
    (hl : ∀ a ∈ l, st.base_ptr ≤ a ∧ a + LIST_T_SIZE ≤ st.max_ptr) :
    committedInv (setBucket st b l) := by
  constructor
  · intro m a ha
    rcases mem_getBucket_setBucket ha with hal | hao
    · exact hl a hal
    · exact h.1 m a hao
  · intro p v hp
    exact h.2 p v hp

theorem committedInv_flip {st : AllocState} (h : committedInv st) (i : Nat) :
    committedInv (flip_parent_is_split st i).2 :=
  committedInv_transport h rfl rfl rfl le_rfl

theorem committedInv_writeHeader {st : AllocState} (h : committedInv st)
    {p : Nat} (v : Nat)
    (hp : st.base_ptr ≤ p ∧ p + LIST_T_SIZE ≤ st.max_ptr) :
    committedInv (writeHeader st p v) := by
  constructor
  · intro m a ha
    exact h.1 m a ha
  · intro q w hq
    rw [writeHeader_mem] at hq
    rcases List.mem_cons.mp hq with heq | hq'
    · cases heq
      exact hp
    · exact h.2 q w hq'

theorem update_max_ptr_true (brkOk : Nat → Bool) (st : AllocState) (v : Nat)
    (st1 : AllocState) (h : update_max_ptr brkOk st v = (true, st1)) :
    v ≤ st1.max_ptr ∧ st.max_ptr ≤ st1.max_ptr ∧ st1.buckets = st.buckets
    ∧ st1.base_ptr = st.base_ptr ∧ st1.mem = st.mem := by
  unfold update_max_ptr at h
  split at h
  · rename_i hgt
    split at h
    · cases h
      exact ⟨le_rfl, Nat.le_of_lt hgt, rfl, rfl, rfl⟩
    · cases h
  · rename_i hle
    cases h
    exact ⟨Nat.le_of_not_lt hle, le_rfl, rfl, rfl, rfl⟩

theorem ptr_for_node_base_eq {st1 st2 : AllocState}
    (h : st1.base_ptr = st2.base_ptr) (i b : Nat) :
    ptr_for_node st1 i b = ptr_for_node st2 i b := by
  unfold ptr_for_node
  rw [h]

theorem split_loop_succ_events (n i k : Nat) (st : AllocState) :
    (split_loop (n+1) i k st).2.2.2 =
      pushEvents (flip_parent_is_split st (i*2+1)).2.max_ptr
        (getBucket (flip_parent_is_split st (i*2+1)).2 (k+1))
        (ptr_for_node (flip_parent_is_split st (i*2+1)).2 (i*2+1+1) (k+1))
      ++ (split_loop n (i*2+1) (k+1)
          (setBucket (flip_parent_is_split st (i*2+1)).2 (k+1)
            (getBucket (flip_parent_is_split st (i*2+1)).2 (k+1)
              ++ [ptr_for_node (flip_parent_is_split st (i*2+1)).2 (i*2+1+1) (k+1)]))).2.2.2 :=
  rfl

theorem split_loop_safe (fuel : Nat) :
    ∀ i bucket st, committedInv st →
      bucket + fuel ≤ MAX_ALLOC_LOG2 →
      ptr_for_node st i bucket + (1 <<< (MAX_ALLOC_LOG2 - bucket)) / 2 + LIST_T_SIZE
        ≤ st.max_ptr →
      eventsBelowMax (split_loop fuel i bucket st).2.2.2
      ∧ committedInv (split_loop fuel i bucket st).2.2.1
      ∧ (split_loop fuel i bucket st).2.2.1.max_ptr = st.max_ptr
      ∧ (split_loop fuel i bucket st).2.2.1.base_ptr = st.base_ptr
      ∧ (split_loop fuel i bucket st).2.2.1.mem = st.mem := by
  induction fuel with
  | zero =>
    intro i bucket st hinv _ _
    exact ⟨eventsBelowMax_nil, hinv, rfl, rfl, rfl⟩
  | succ n ih =>
    intro i bucket st hinv hk hbound
    have hb30 : bucket + 1 ≤ MAX_ALLOC_LOG2 := by
      have h31 : MAX_ALLOC_LOG2 = 31 := rfl
      omega
    have hmax1 : (flip_parent_is_split st (i*2+1)).2.max_ptr = st.max_ptr := rfl
    have hbase1 : (flip_parent_is_split st (i*2+1)).2.base_ptr = st.base_ptr := rfl
    have hinv1 : committedInv (flip_parent_is_split st (i*2+1)).2 :=
      committedInv_flip hinv _
    have hA1 : ptr_for_node (flip_parent_is_split st (i*2+1)).2 i bucket
        = ptr_for_node st i bucket := ptr_for_node_base_eq hbase1 i bucket
    have hsib_le : ptr_for_node (flip_parent_is_split st (i*2+1)).2 (i*2+1+1) (bucket+1)
        ≤ ptr_for_node st i bucket + (1 <<< (MAX_ALLOC_LOG2 - (bucket+1))) := by
      have h := sib_addr_le (flip_parent_is_split st (i*2+1)).2 i bucket hb30
      rw [hA1] at h
      exact h
    have hhalf : (1 <<< (MAX_ALLOC_LOG2 - (bucket+1)))
        ≤ (1 <<< (MAX_ALLOC_LOG2 - bucket)) / 2 := by
      simp only [Nat.shiftLeft_eq, one_mul]
      have hstep : MAX_ALLOC_LOG2 - bucket = (MAX_ALLOC_LOG2 - (bucket+1)) + 1 := by
        have h31 : MAX_ALLOC_LOG2 = 31 := rfl
        omega
      rw [hstep, Nat.pow_succ]
      omega
    have hsib_bound : ptr_for_node (flip_parent_is_split st (i*2+1)).2 (i*2+1+1) (bucket+1)
        + LIST_T_SIZE ≤ st.max_ptr := by
      omega
    have hpush : eventsBelowMax
        (pushEvents (flip_parent_is_split st (i*2+1)).2.max_ptr
          (getBucket (flip_parent_is_split st (i*2+1)).2 (bucket+1))
          (ptr_for_node (flip_parent_is_split st (i*2+1)).2 (i*2+1+1) (bucket+1))) := by
      apply pushEvents_spec
      · rw [hmax1]
        exact hsib_bound
      · intro a ha
        exact (hinv1.1 (bucket+1) a ha).2
    have hinv2 : committedInv
        (setBucket (flip_parent_is_split st (i*2+1)).2 (bucket+1)
          (getBucket (flip_parent_is_split st (i*2+1)).2 (bucket+1)
            ++ [ptr_for_node (flip_parent_is_split st (i*2+1)).2 (i*2+1+1) (bucket+1)])) := by
      apply committedInv_setBucket hinv1
      intro a ha
      rcases List.mem_append.mp ha with h1 | h1
      · exact hinv1.1 (bucket+1) a h1
      · rcases List.mem_singleton.mp h1 with rfl
        refine ⟨ptr_for_node_ge _ _ _, ?_⟩
        rw [hmax1]
        exact hsib_bound
    have hbound2 : ptr_for_node
        (setBucket (flip_parent_is_split st (i*2+1)).2 (bucket+1)
          (getBucket (flip_parent_is_split st (i*2+1)).2 (bucket+1)
            ++ [ptr_for_node (flip_parent_is_split st (i*2+1)).2 (i*2+1+1) (bucket+1)]))
        (i*2+1) (bucket+1)
        + (1 <<< (MAX_ALLOC_LOG2 - (bucket+1))) / 2 + LIST_T_SIZE
        ≤ (setBucket (flip_parent_is_split st (i*2+1)).2 (bucket+1)
            (getBucket (flip_parent_is_split st (i*2+1)).2 (bucket+1)
              ++ [ptr_for_node (flip_parent_is_split st (i*2+1)).2 (i*2+1+1) (bucket+1)])).max_ptr := by
      have hb : (setBucket (flip_parent_is_split st (i*2+1)).2 (bucket+1)
          (getBucket (flip_parent_is_split st (i*2+1)).2 (bucket+1)
            ++ [ptr_for_node (flip_parent_is_split st (i*2+1)).2 (i*2+1+1) (bucket+1)])).base_ptr
          = st.base_ptr := rfl
      have hm : (setBucket (flip_parent_is_split st (i*2+1)).2 (bucket+1)
          (getBucket (flip_parent_is_split st (i*2+1)).2 (bucket+1)
            ++ [ptr_for_node (flip_parent_is_split st (i*2+1)).2 (i*2+1+1) (bucket+1)])).max_ptr
          = st.max_ptr := rfl
      rw [hm, ptr_for_node_base_eq hb, left_child_addr st i bucket hb30]
      have hmono : (1 <<< (MAX_ALLOC_LOG2 - (bucket+1))) / 2
          ≤ (1 <<< (MAX_ALLOC_LOG2 - bucket)) / 2 := by
        simp only [Nat.shiftLeft_eq, one_mul]
        apply Nat.div_le_div_right
        apply Nat.pow_le_pow_right (by omega)
        omega
      omega
    have hrec := ih (i*2+1) (bucket+1)
      (setBucket (flip_parent_is_split st (i*2+1)).2 (bucket+1)
        (getBucket (flip_parent_is_split st (i*2+1)).2 (bucket+1)
          ++ [ptr_for_node (flip_parent_is_split st (i*2+1)).2 (i*2+1+1) (bucket+1)]))
      hinv2 (by omega) hbound2
    rw [show (split_loop (n+1) i bucket st).2.2.2
        = pushEvents (flip_parent_is_split st (i*2+1)).2.max_ptr
            (getBucket (flip_parent_is_split st (i*2+1)).2 (bucket+1))
            (ptr_for_node (flip_parent_is_split st (i*2+1)).2 (i*2+1+1) (bucket+1))
          ++ (split_loop n (i*2+1) (bucket+1)
              (setBucket (flip_parent_is_split st (i*2+1)).2 (bucket+1)
                (getBucket (flip_parent_is_split st (i*2+1)).2 (bucket+1)
                  ++ [ptr_for_node (flip_parent_is_split st (i*2+1)).2 (i*2+1+1) (bucket+1)]))).2.2.2
        from rfl,
      split_loop_succ_state]
    exact ⟨eventsBelowMax_append hpush hrec.1, hrec.2.1,
      by rw [hrec.2.2.1]; rfl, by rw [hrec.2.2.2.1]; rfl, by rw [hrec.2.2.2.2]; rfl⟩

theorem node_addr_le (st : AllocState) (ptr bucket : Nat)
    (h : st.base_ptr ≤ ptr) :
    ptr_for_node st (node_for_ptr st ptr bucket) bucket ≤ ptr := by
  unfold ptr_for_node node_for_ptr
  simp only [Nat.shiftLeft_eq, Nat.shiftRight_eq_div_pow, one_mul]
  have hP1 : 1 ≤ 2^bucket := Nat.one_le_two_pow
  have hdm : (ptr - st.base_ptr) / 2^(MAX_ALLOC_LOG2 - bucket) * 2^(MAX_ALLOC_LOG2 - bucket)
      ≤ ptr - st.base_ptr := Nat.div_mul_le_self _ _
  generalize hg : (ptr - st.base_ptr) / 2^(MAX_ALLOC_LOG2 - bucket) = q at hdm ⊢
  have hq : q + 2^bucket - 1 + 1 - 2^bucket = q := by omega
  rw [hq]
  omega

theorem size_ge_sixteen (bucket : Nat)
    (h : bucket ≤ MAX_ALLOC_LOG2 - MIN_ALLOC_LOG2) :
    16 ≤ 1 <<< (MAX_ALLOC_LOG2 - bucket) := by
  simp only [Nat.shiftLeft_eq, one_mul]
  have h31 : MAX_ALLOC_LOG2 = 31 := rfl
  have h4 : MIN_ALLOC_LOG2 = 4 := rfl
  calc (16:Nat) = 2^4 := by norm_num
  _ ≤ 2^(MAX_ALLOC_LOG2 - bucket) := Nat.pow_le_pow_right (by omega) (by omega)

theorem malloc_after_commit_safe (request original bucket i : Nat)
    (ST2 : AllocState) (ptr : Nat) (popEv : List WEvent)
    (hinv2 : committedInv ST2)
    (hmax2 : ptr + (if bucket < original
        then (1 <<< (MAX_ALLOC_LOG2 - bucket)) / 2 + LIST_T_SIZE
        else 1 <<< (MAX_ALLOC_LOG2 - bucket)) ≤ ST2.max_ptr)
    (hA : ptr_for_node ST2 i bucket ≤ ptr)
    (hbase2 : ST2.base_ptr ≤ ptr)
    (horig : original ≤ MAX_ALLOC_LOG2 - MIN_ALLOC_LOG2)
    (hbuck : bucket ≤ original)
    (hpop : eventsBelowMax popEv) :
    eventsBelowMax (popEv ++ (split_loop (original - bucket) i bucket ST2).2.2.2
        ++ [⟨ptr, ptr + HEADER_SIZE,
             (split_loop (original - bucket) i bucket ST2).2.2.1.max_ptr⟩])
    ∧ committedInv
        (writeHeader (split_loop (original - bucket) i bucket ST2).2.2.1 ptr request) := by
  have h16 : LIST_T_SIZE = 16 := rfl
  have h8 : HEADER_SIZE = 8 := rfl
  have h31 : MAX_ALLOC_LOG2 = 31 := rfl
  have h4 : MIN_ALLOC_LOG2 = 4 := rfl
  by_cases hbo : bucket < original
  · rw [if_pos hbo] at hmax2
    have hhalfeq : (1 <<< (MAX_ALLOC_LOG2 - bucket)) / 2
        = 2^(MAX_ALLOC_LOG2 - bucket - 1) := by
      have hk : MAX_ALLOC_LOG2 - bucket = (MAX_ALLOC_LOG2 - bucket - 1) + 1 := by omega
      have hpow2 : 2^(MAX_ALLOC_LOG2 - bucket) = 2^(MAX_ALLOC_LOG2 - bucket - 1) * 2 := by
        conv_lhs => rw [hk]
        rw [Nat.pow_succ]
      calc (1 <<< (MAX_ALLOC_LOG2 - bucket)) / 2
          = 2^(MAX_ALLOC_LOG2 - bucket) / 2 := by
            simp [Nat.shiftLeft_eq]
        _ = 2^(MAX_ALLOC_LOG2 - bucket - 1) * 2 / 2 := by rw [hpow2]
        _ = 2^(MAX_ALLOC_LOG2 - bucket - 1) := Nat.mul_div_cancel _ (by norm_num)
    rw [hhalfeq] at hmax2
    have hp1 : 1 ≤ 2^(MAX_ALLOC_LOG2 - bucket - 1) := Nat.one_le_two_pow
    have hbound : ptr_for_node ST2 i bucket
        + (1 <<< (MAX_ALLOC_LOG2 - bucket)) / 2 + LIST_T_SIZE ≤ ST2.max_ptr := by
      rw [hhalfeq]
      omega
    have hs := split_loop_safe (original - bucket) i bucket ST2 hinv2
      (by omega) hbound
    refine ⟨?_, ?_⟩
    · apply eventsBelowMax_append (eventsBelowMax_append hpop hs.1)
      intro e he
      rcases List.mem_singleton.mp he with rfl
      show ptr + HEADER_SIZE ≤ (split_loop (original - bucket) i bucket ST2).2.2.1.max_ptr
      rw [hs.2.2.1]
      omega
    · apply committedInv_writeHeader hs.2.1
      rw [hs.2.2.1, hs.2.2.2.1]
      exact ⟨hbase2, by omega⟩
  · have hbe : original - bucket = 0 := by omega
    rw [if_neg hbo] at hmax2
    have hsz : 16 ≤ 1 <<< (MAX_ALLOC_LOG2 - bucket) :=
      size_ge_sixteen bucket (by omega)
    rw [hbe]
    rw [show split_loop 0 i bucket ST2 = (i, bucket, ST2, []) from rfl]
    refine ⟨?_, ?_⟩
    · apply eventsBelowMax_append (eventsBelowMax_append hpop eventsBelowMax_nil)
      intro e he
      rcases List.mem_singleton.mp he with rfl
      show ptr + HEADER_SIZE ≤ ST2.max_ptr
      omega
    · apply committedInv_writeHeader hinv2
      exact ⟨hbase2, by omega⟩

theorem mallocFound_safe (brkOk : Nat → Bool) (original request bucket : Nat)
    (st : AllocState) (ptr : Nat)
    (hinv : committedInv st)
    (horig : original ≤ MAX_ALLOC_LOG2 - MIN_ALLOC_LOG2)
    (hbuck : bucket ≤ original)
    (hl : (getBucket st bucket).getLast? = some ptr) :
    eventsBelowMax (mallocFound brkOk original request bucket st ptr
      (getBucket st bucket).dropLast).2.2
    ∧ committedInv (mallocFound brkOk original request bucket st ptr
      (getBucket st bucket).dropLast).2.1 := by
  have h16 : LIST_T_SIZE = 16 := rfl
  have hptr := hinv.1 bucket ptr (List.mem_of_getLast?_eq_some hl)
  have hpop : eventsBelowMax (popEvents st.max_ptr (getBucket st bucket)) := by
    apply popEvents_spec
    intro a ha
    exact (hinv.1 bucket a ha).2
  have hinv0 : committedInv (setBucket st bucket (getBucket st bucket).dropLast) := by
    apply committedInv_setBucket hinv
    intro a ha
    exact hinv.1 bucket a (List.dropLast_subset _ ha)
  simp only [mallocFound]
  split
  · rename_i st1 heq
    have hu := update_max_ptr_true brkOk _ _ _ heq
    have hinv1 : committedInv st1 :=
      committedInv_transport hinv0 hu.2.2.1 hu.2.2.2.2 hu.2.2.2.1 hu.2.1
    have hbase1 : st1.base_ptr = st.base_ptr := hu.2.2.2.1
    have hst2 : committedInv (if node_for_ptr st1 ptr bucket ≠ 0
          then (flip_parent_is_split st1 (node_for_ptr st1 ptr bucket)).2 else st1)
        ∧ (if node_for_ptr st1 ptr bucket ≠ 0
          then (flip_parent_is_split st1 (node_for_ptr st1 ptr bucket)).2 else st1).max_ptr
            = st1.max_ptr
        ∧ (if node_for_ptr st1 ptr bucket ≠ 0
          then (flip_parent_is_split st1 (node_for_ptr st1 ptr bucket)).2 else st1).base_ptr
            = st1.base_ptr := by
      split
      · exact ⟨committedInv_flip hinv1 _, rfl, rfl⟩
      · exact ⟨hinv1, rfl, rfl⟩
    apply malloc_after_commit_safe request original bucket
      (node_for_ptr st1 ptr bucket) _ ptr _ hst2.1
    · rw [hst2.2.1]
      exact hu.1
    · rw [ptr_for_node_base_eq hst2.2.2]
      apply node_addr_le
      rw [hbase1]
      exact hptr.1
    · rw [hst2.2.2, hbase1]
      exact hptr.1
    · exact horig
    · exact hbuck
    · exact hpop
  · rename_i st1 heq
    have hst1 : st1 = setBucket st bucket (getBucket st bucket).dropLast :=
      update_max_ptr_eq_false brkOk _ _ _ heq
    subst hst1
    refine ⟨?_, ?_⟩
    · apply eventsBelowMax_append hpop
      apply pushEvents_spec
      · exact hptr.2
      · intro a ha
        exact (hinv0.1 bucket a ha).2
    · apply committedInv_setBucket hinv0
      intro a ha
      rcases List.mem_append.mp ha with h1 | h1
      · exact hinv0.1 bucket a h1
      · rcases List.mem_singleton.mp h1 with rfl
        exact ⟨hptr.1, hptr.2⟩

theorem lookup_mem : ∀ (l : List (Nat × Nat)) (a b : Nat),
    l.lookup a = some b → (a, b) ∈ l := by
  intro l
  induction l with
  | nil => intro a b h; simp [List.lookup] at h
  | cons p t ih =>
    intro a b h
    rw [List.lookup] at h
    cases hk : a == p.1 with
    | true =>
      rw [hk] at h
      have h' : some p.2 = some b := h
      cases h'
      have : a = p.1 := beq_iff_eq.mp hk
      rw [this]
      show p ∈ p :: t
      exact List.mem_cons_self p t
    | false =>
      rw [hk] at h
      have h' : List.lookup a t = some b := h
      right
      exact ih a b h'

theorem bucketLoop_le (fuel : Nat) : ∀ size request, bucketLoop fuel size request ≤ fuel := by
  induction fuel with
  | zero => intro size request; exact le_rfl
  | succ n ih =>
    intro size request
    rw [bucketLoop]
    split
    · exact Nat.le_succ_of_le (ih _ _)
    · exact le_rfl

theorem bucket_for_request_le (request : Nat) :
    bucket_for_request request ≤ MAX_ALLOC_LOG2 - MIN_ALLOC_LOG2 :=
  bucketLoop_le _ _ _

theorem malloc_loop_safe (brkOk : Nat → Bool) (original request : Nat)
    (horig : original ≤ MAX_ALLOC_LOG2 - MIN_ALLOC_LOG2) :
    ∀ bucket st, committedInv st → bucket ≤ original →
    eventsBelowMax (malloc_loop brkOk original request bucket st).2.2
    ∧ committedInv (malloc_loop brkOk original request bucket st).2.1 := by
  intro bucket
  induction bucket with
  | zero =>
    intro st hinv hb
    rw [malloc_loop]
    cases hl : (getBucket st 0).getLast? with
    | none => exact ⟨eventsBelowMax_nil, hinv⟩
    | some ptr => exact mallocFound_safe brkOk original request 0 st ptr hinv horig hb hl
  | succ b ih =>
    intro st hinv hb
    rw [malloc_loop]
    cases hl : (getBucket st (b+1)).getLast? with
    | none => exact ih st hinv (by omega)
    | some ptr => exact mallocFound_safe brkOk original request (b+1) st ptr hinv horig hb hl

theorem malloc_safe (brkOk : Nat → Bool) (st : AllocState) (request : Nat)
    (hinv : committedInv st) :
    eventsBelowMax (buddy_malloc brkOk st request).2.2
    ∧ committedInv (buddy_malloc brkOk st request).2.1 := by
  simp only [buddy_malloc]
  split
  · exact ⟨eventsBelowMax_nil, hinv⟩
  · exact malloc_loop_safe brkOk _ request (bucket_for_request_le _) _ st hinv le_rfl

theorem committedInv_intro (st : AllocState)
    (h1 : ∀ l ∈ st.buckets, ∀ a ∈ l, st.base_ptr ≤ a ∧ a + LIST_T_SIZE ≤ st.max_ptr)
    (h2 : ∀ pv ∈ st.mem, st.base_ptr ≤ pv.1 ∧ pv.1 + LIST_T_SIZE ≤ st.max_ptr) :
    committedInv st := by
  constructor
  · intro b a ha
    rw [getBucket_def, List.getD_eq_getElem?_getD] at ha
    cases hg : st.buckets[b]? with
    | none => rw [hg] at ha; cases ha
    | some l => rw [hg] at ha; exact h1 l (List.getElem?_mem hg) a ha
  · intro p v hp
    exact h2 (p, v) hp

theorem init_safe (brkOk : Nat → Bool) (base : Nat)
    (hbrk : brkOk (base + LIST_T_SIZE) = true) :
    eventsBelowMax (buddy_init brkOk base).2
    ∧ committedInv (buddy_init brkOk base).1 := by
  have h16 : LIST_T_SIZE = 16 := rfl
  have hst1 : (update_max_ptr brkOk
      { buckets := List.replicate BUCKET_COUNT []
        node_is_split := 0, base_ptr := base, max_ptr := base, mem := [] }
      (base + LIST_T_SIZE)).2
    = { buckets := List.replicate BUCKET_COUNT []
        node_is_split := 0, base_ptr := base, max_ptr := base + LIST_T_SIZE, mem := [] } := by
    unfold update_max_ptr
    rw [if_pos (show base + LIST_T_SIZE >
        ({ buckets := List.replicate BUCKET_COUNT [], node_is_split := 0,
           base_ptr := base, max_ptr := base, mem := [] } : AllocState).max_ptr by
      show base + LIST_T_SIZE > base
      omega)]
    rw [if_pos hbrk]
  simp only [buddy_init]
  rw [hst1]
  have hg0 : getBucket
      { buckets := List.replicate BUCKET_COUNT ([] : List Nat)
        node_is_split := 0, base_ptr := base, max_ptr := base + LIST_T_SIZE, mem := [] } 0
      = [] := rfl
  rw [hg0]
  constructor
  · intro e he
    rcases List.mem_cons.mp he with rfl | he'
    · show base + LIST_T_SIZE ≤ base + LIST_T_SIZE
      exact le_rfl
    · cases he'
  · apply committedInv_setBucket
    · apply committedInv_intro
      · intro l hl a ha
        have : l = [] := List.eq_of_mem_replicate hl
        rw [this] at ha
        cases ha
      · intro pv hpv
        cases hpv
    · intro a ha
      rcases List.mem_singleton.mp (by simpa using ha) with rfl
      exact ⟨le_rfl, le_rfl⟩

theorem parent_addr_le (st : AllocState) (i b : Nat)
    (hbM : b + 1 ≤ MAX_ALLOC_LOG2) :
    ptr_for_node st (i / 2) b ≤ ptr_for_node st (i + 1) (b + 1) := by
  rcases Nat.even_or_odd i with he | ho
  · obtain ⟨m, hm⟩ := he
    subst hm
    rw [show (m + m) / 2 = m by omega, show m + m + 1 = m * 2 + 1 by omega]
    exact le_of_eq (left_child_addr st m b hbM).symm
  · obtain ⟨m, hm⟩ := ho
    subst hm
    rw [show (2 * m + 1) / 2 = m by omega, show 2 * m + 1 + 1 = m * 2 + 1 + 1 by omega]
    unfold ptr_for_node
    apply Nat.add_le_add_left
    simp only [Nat.shiftLeft_eq, one_mul]
    have hP1 : 1 ≤ 2^b := Nat.one_le_two_pow
    have hPP : 2^(b+1) = 2 * 2^b := by rw [Nat.pow_succ]; ring
    have hQ : 2^(MAX_ALLOC_LOG2 - b) = 2 * 2^(MAX_ALLOC_LOG2 - (b+1)) := by
      rw [show MAX_ALLOC_LOG2 - b = (MAX_ALLOC_LOG2 - (b+1)) + 1 by
        have h31 : MAX_ALLOC_LOG2 = 31 := rfl
        omega, Nat.pow_succ]
      ring
    rcases le_or_lt (2^b) (m+1) with hle | hlt
    · rw [show m * 2 + 1 + 1 + 1 - 2^(b+1) = 2*(m+1-2^b) + 1 by omega, hQ]
      have hrw : (m + 1 - 2^b) * (2 * 2^(MAX_ALLOC_LOG2 - (b+1)))
          = (2 * (m + 1 - 2^b)) * 2^(MAX_ALLOC_LOG2 - (b+1)) := by ring
      rw [hrw]
      exact Nat.mul_le_mul_right _ (by omega)
    · rw [show m + 1 - 2^b = 0 by omega]
      simp

theorem flip_base_ptr (st : AllocState) (i : Nat) :
    (flip_parent_is_split st i).2.base_ptr = st.base_ptr := rfl

theorem free_loop_safe (fuel : Nat) :
    ∀ i bucket st, committedInv st →
      i ≤ 2^(bucket+1) - 2 → bucket ≤ MAX_ALLOC_LOG2 →
      eventsBelowMax (free_loop fuel i bucket st).2.2.2
      ∧ committedInv (free_loop fuel i bucket st).2.2.1
      ∧ (free_loop fuel i bucket st).2.2.1.max_ptr = st.max_ptr
      ∧ (free_loop fuel i bucket st).2.2.1.base_ptr = st.base_ptr
      ∧ ptr_for_node (free_loop fuel i bucket st).2.2.1
          (free_loop fuel i bucket st).1 (free_loop fuel i bucket st).2.1
        ≤ ptr_for_node st i bucket := by
  induction fuel with
  | zero =>
    intro i bucket st hinv _ _
    exact ⟨eventsBelowMax_nil, hinv, rfl, rfl, le_rfl⟩
  | succ n ih =>
    intro i bucket st hinv hrange hbM
    rcases i with _ | i
    · exact ⟨eventsBelowMax_nil, hinv, rfl, rfl, le_rfl⟩
    have hb1 : 1 ≤ bucket := by
      rcases Nat.eq_zero_or_pos bucket with rfl | hb1
      · exfalso
        have h2 : (2:Nat)^(0+1) - 2 = 0 := by norm_num
        omega
      · exact hb1
    obtain ⟨b, rfl⟩ : ∃ b, bucket = b + 1 := ⟨bucket - 1, by omega⟩
    simp only [free_loop]
    split
    · refine ⟨eventsBelowMax_nil, committedInv_flip hinv _, rfl, rfl, ?_⟩
      exact le_of_eq (ptr_for_node_base_eq (flip_base_ptr st (i+1)) _ _)
    · have hinv1 : committedInv (flip_parent_is_split st (i+1)).2 :=
        committedInv_flip hinv _
      have hinv2 : committedInv
          (setBucket (flip_parent_is_split st (i+1)).2 (b+1)
            ((getBucket (flip_parent_is_split st (i+1)).2 (b+1)).erase
              (ptr_for_node (flip_parent_is_split st (i+1)).2 ((i ^^^ 1) + 1) (b+1)))) := by
        apply committedInv_setBucket hinv1
        intro a ha
        exact hinv1.1 (b+1) a (List.erase_subset _ _ ha)
      have hrange2 : i / 2 ≤ 2^(b+1) - 2 := by
        have e1 : (2:Nat)^(b+1+1) = 2 * 2^(b+1) := by rw [Nat.pow_succ]; ring
        have e2 : (2:Nat) ≤ 2^(b+1) := by
          calc (2:Nat) = 2^1 := rfl
          _ ≤ 2^(b+1) := Nat.pow_le_pow_right (by omega) (by omega)
        omega
      have hrec := ih (i/2) (b+1-1)
        (setBucket (flip_parent_is_split st (i+1)).2 (b+1)
          ((getBucket (flip_parent_is_split st (i+1)).2 (b+1)).erase
            (ptr_for_node (flip_parent_is_split st (i+1)).2 ((i ^^^ 1) + 1) (b+1))))
        hinv2 (by simpa using hrange2) (by omega)
      have herase : eventsBelowMax
          (eraseEvents (flip_parent_is_split st (i+1)).2.max_ptr
            (getBucket (flip_parent_is_split st (i+1)).2 (b+1))
            (ptr_for_node (flip_parent_is_split st (i+1)).2 ((i ^^^ 1) + 1) (b+1))) := by
        apply eraseEvents_spec
        intro x hx
        exact (hinv1.1 (b+1) x hx).2
      refine ⟨eventsBelowMax_append herase hrec.1, hrec.2.1, ?_, ?_, ?_⟩
      · rw [hrec.2.2.1]; rfl
      · rw [hrec.2.2.2.1]; rfl
      · apply le_trans hrec.2.2.2.2
        have hbeq : (setBucket (flip_parent_is_split st (i+1)).2 (b+1)
            ((getBucket (flip_parent_is_split st (i+1)).2 (b+1)).erase
              (ptr_for_node (flip_parent_is_split st (i+1)).2 ((i ^^^ 1) + 1) (b+1)))).base_ptr
            = st.base_ptr := rfl
        rw [ptr_for_node_base_eq hbeq]
        have := parent_addr_le st i b hbM
        simpa using this

theorem free_parts_safe (st : AllocState) (p bucket : Nat)
    (hinv : committedInv st)
    (hbM : bucket ≤ MAX_ALLOC_LOG2)
    (hp1 : st.base_ptr ≤ p) (hp2 : p + LIST_T_SIZE ≤ st.max_ptr)
    (hparena : p - st.base_ptr < 2^MAX_ALLOC_LOG2) :
    eventsBelowMax ((free_loop FREE_FUEL (node_for_ptr st p bucket) bucket st).2.2.2
      ++ pushEvents (free_loop FREE_FUEL (node_for_ptr st p bucket) bucket st).2.2.1.max_ptr
           (getBucket (free_loop FREE_FUEL (node_for_ptr st p bucket) bucket st).2.2.1
             (free_loop FREE_FUEL (node_for_ptr st p bucket) bucket st).2.1)
           (ptr_for_node (free_loop FREE_FUEL (node_for_ptr st p bucket) bucket st).2.2.1
             (free_loop FREE_FUEL (node_for_ptr st p bucket) bucket st).1
             (free_loop FREE_FUEL (node_for_ptr st p bucket) bucket st).2.1))
    ∧ committedInv (setBucket (free_loop FREE_FUEL (node_for_ptr st p bucket) bucket st).2.2.1
        (free_loop FREE_FUEL (node_for_ptr st p bucket) bucket st).2.1
        (getBucket (free_loop FREE_FUEL (node_for_ptr st p bucket) bucket st).2.2.1
          (free_loop FREE_FUEL (node_for_ptr st p bucket) bucket st).2.1
          ++ [ptr_for_node (free_loop FREE_FUEL (node_for_ptr st p bucket) bucket st).2.2.1
              (free_loop FREE_FUEL (node_for_ptr st p bucket) bucket st).1
              (free_loop FREE_FUEL (node_for_ptr st p bucket) bucket st).2.1])) := by
  have h16 : LIST_T_SIZE = 16 := rfl
  have h31 : MAX_ALLOC_LOG2 = 31 := rfl
  have hi : node_for_ptr st p bucket ≤ 2^(bucket+1) - 2 := by
    unfold node_for_ptr
    simp only [Nat.shiftRight_eq_div_pow, Nat.shiftLeft_eq, one_mul]
    have hP1 : 1 ≤ (2:Nat)^bucket := Nat.one_le_two_pow
    have hPP : (2:Nat)^(bucket+1) = 2 * 2^bucket := by rw [Nat.pow_succ]; ring
    have hdiv : (p - st.base_ptr) / 2^(MAX_ALLOC_LOG2 - bucket) < 2^bucket := by
      rw [Nat.div_lt_iff_lt_mul (Nat.two_pow_pos _)]
      calc p - st.base_ptr < 2^MAX_ALLOC_LOG2 := hparena
      _ = 2^bucket * 2^(MAX_ALLOC_LOG2 - bucket) := by
          rw [← Nat.pow_add]
          congr 1
          omega
    generalize hg : (p - st.base_ptr) / 2^(MAX_ALLOC_LOG2 - bucket) = q at hdiv
    rw [hPP]
    omega
  have hfl := free_loop_safe FREE_FUEL (node_for_ptr st p bucket) bucket st hinv hi hbM
  have haddr : ptr_for_node (free_loop FREE_FUEL (node_for_ptr st p bucket) bucket st).2.2.1
      (free_loop FREE_FUEL (node_for_ptr st p bucket) bucket st).1
      (free_loop FREE_FUEL (node_for_ptr st p bucket) bucket st).2.1 ≤ p :=
    le_trans hfl.2.2.2.2 (node_addr_le st p bucket hp1)
  refine ⟨eventsBelowMax_append hfl.1 ?_, ?_⟩
  · apply pushEvents_spec
    · rw [hfl.2.2.1]
      omega
    · intro a ha
      exact (hfl.2.1.1 _ a ha).2
  · apply committedInv_setBucket hfl.2.1
    intro a ha
    rcases List.mem_append.mp ha with h1 | h1
    · exact hfl.2.1.1 _ a h1
    · rcases List.mem_singleton.mp h1 with rfl
      refine ⟨ptr_for_node_ge _ _ _, ?_⟩
      rw [hfl.2.2.1]
      omega

theorem free_safe (st : AllocState) (userPtr v : Nat)
    (hinv : committedInv st)
    (hmem : st.mem.lookup (userPtr - HEADER_SIZE) = some v)
    (harena : userPtr ≤ st.base_ptr + MAX_ALLOC) :
    eventsBelowMax (buddy_free st userPtr).2
    ∧ committedInv (buddy_free st userPtr).1 := by
  have hp := hinv.2 _ v (lookup_mem _ _ _ hmem)
  have h16 : LIST_T_SIZE = 16 := rfl
  have h8 : HEADER_SIZE = 8 := rfl
  have hMA : MAX_ALLOC = 2147483648 := rfl
  have h2M : (2:Nat)^MAX_ALLOC_LOG2 = 2147483648 := by
    rw [show MAX_ALLOC_LOG2 = 31 from rfl]
    norm_num
  exact free_parts_safe st (userPtr - HEADER_SIZE)
    (bucket_for_request ((readHeader st (userPtr - HEADER_SIZE) + HEADER_SIZE) % SIZE_T_MOD))
    hinv (le_trans (bucket_for_request_le _) (Nat.sub_le _ _))
    hp.1 hp.2 (by omega)

/-- C8: commit always precedes the first write into newly committed bytes.
Under the committed-memory invariant, every arena write recorded during
`buddy_init` (when the host grants the initial commit), `buddy_malloc` and
`buddy_free` (of a pointer whose header was written, inside the arena) ends
at or below the high-water mark current at the time of the write, and each
call re-establishes the invariant. -/
theorem c8_commit_precedes_writes :
    (∀ brkOk base, brkOk (base + LIST_T_SIZE) = true →
       eventsBelowMax (buddy_init brkOk base).2
       ∧ committedInv (buddy_init brkOk base).1)
    ∧ (∀ brkOk st request, committedInv st →
       eventsBelowMax (buddy_malloc brkOk st request).2.2
       ∧ committedInv (buddy_malloc brkOk st request).2.1)
    ∧ (∀ st userPtr v, committedInv st →
       st.mem.lookup (userPtr - HEADER_SIZE) = some v →
       userPtr ≤ st.base_ptr + MAX_ALLOC →
       eventsBelowMax (buddy_free st userPtr).2
       ∧ committedInv (buddy_free st userPtr).1) :=
  ⟨fun brkOk base h => init_safe brkOk base h,
   fun brkOk st request h => malloc_safe brkOk st request h,
   fun st userPtr v h1 h2 h3 => free_safe st userPtr v h1 h2 h3⟩

theorem c8_commit_precedes_writes_witness :
    (eventsBelowMax (buddy_init allTrue 0).2 ∧ committedInv (buddy_init allTrue 0).1)
    ∧ (eventsBelowMax (buddy_malloc allTrue st0 8).2.2
       ∧ committedInv (buddy_malloc allTrue st0 8).2.1)
    ∧ (eventsBelowMax (buddy_free stA 8).2 ∧ committedInv (buddy_free stA 8).1) :=
  ⟨c8_commit_precedes_writes.1 allTrue 0 (by decide),
   c8_commit_precedes_writes.2.1 allTrue st0 8
     (committedInv_intro st0 (by decide) (by decide)),
   c8_commit_precedes_writes.2.2 stA 8 8
     (committedInv_intro stA (by decide) (by decide)) (by decide) (by decide)⟩

end BuddyMalloc
